import Mathlib

/-!
Verification development for the Quora answer scraper (`parse_quora.py`).

The Python source is shallowly embedded: the browser driver is modelled as a
record of oracles, one per call site, each returning `Except String α` where
`Except.error msg` models a raised exception carrying `str(e) = msg`; text is
modelled as `List Char` for the regular-expression scanners and as `String`
elsewhere; Python `float` literals parsed from decimal digit strings are
modelled as exact rationals.
-/

abbrev Chars := List Char

/-- ASCII decimal digit test, the model of the character class `\d` and of
`str.isdigit` for ASCII text. -/
def isDig (c : Char) : Bool := decide (48 ≤ c.toNat ∧ c.toNat ≤ 57)

/-- Model of `str.lower` on a single ASCII character, written as an explicit
table so that facts about it follow by case analysis. -/
def pyCharLower : Char → Char
  | 'A' => 'a' | 'B' => 'b' | 'C' => 'c' | 'D' => 'd' | 'E' => 'e' | 'F' => 'f'
  | 'G' => 'g' | 'H' => 'h' | 'I' => 'i' | 'J' => 'j' | 'K' => 'k' | 'L' => 'l'
  | 'M' => 'm' | 'N' => 'n' | 'O' => 'o' | 'P' => 'p' | 'Q' => 'q' | 'R' => 'r'
  | 'S' => 's' | 'T' => 't' | 'U' => 'u' | 'V' => 'v' | 'W' => 'w' | 'X' => 'x'
  | 'Y' => 'y' | 'Z' => 'z'
  | c => c

def pyLowerC (s : Chars) : Chars := s.map pyCharLower

/-- Model of `str.lower` on strings. -/
def pyLowerS (s : String) : String := String.mk (pyLowerC s.toList)

/-- `startsWithL needle hay` holds when `hay` begins with `needle`. -/
def startsWithL : Chars → Chars → Bool
  | [], _ => true
  | _ :: _, [] => false
  | a :: as, b :: bs => a == b && startsWithL as bs

/-- Substring containment over character lists, the model of Python `in`. -/
def containsSub (needle : Chars) : Chars → Bool
  | [] => needle.isEmpty
  | c :: t => startsWithL needle (c :: t) || containsSub needle t

/-- Model of Python `sub in hay` for strings. -/
def strContains (hay sub : String) : Bool := containsSub sub.toList hay.toList

/-- Model of `s.isdigit()` over character lists (nonempty, all ASCII digits). -/
def pyIsDigitC (s : Chars) : Bool := !s.isEmpty && s.all isDig

/-- Model of `s.isdigit()` for strings. -/
def pyIsDigitS (s : String) : Bool := pyIsDigitC s.toList

/-- Numeric value of a digit string, the model of Python `int(`digits`)`. -/
def natOfDigits (s : Chars) : Nat := s.foldl (fun n c => n * 10 + (c.toNat - 48)) 0

/-- Model of a Python `datetime.datetime` value as built by `extract_post_date`:
six numeric fields, compared lexicographically. -/
structure PyDateTime where
  year : Nat
  month : Nat
  day : Nat
  hour : Nat
  minute : Nat
  second : Nat
deriving DecidableEq

/-- Lexicographic comparison of datetimes, the model of Python `datetime`
ordering used by `all_found_dates.sort(key=lambda x: x[0])`. -/
def dtLe (a b : PyDateTime) : Bool :=
  decide (a.year < b.year ∨ (a.year = b.year ∧ (a.month < b.month ∨ (a.month = b.month ∧
    (a.day < b.day ∨ (a.day = b.day ∧ (a.hour < b.hour ∨ (a.hour = b.hour ∧
    (a.minute < b.minute ∨ (a.minute = b.minute ∧ a.second ≤ b.second))))))))))

/-- A parsed date candidate: the `(date_obj, formatted_date)` tuples collected
by `extract_post_date`. -/
structure Cand where
  ts : PyDateTime
  display : String
deriving DecidableEq

/-- Insertion step of a stable sort on the `ts` component. -/
def insertCand (c : Cand) : List Cand → List Cand
  | [] => [c]
  | d :: ds => if dtLe c.ts d.ts then c :: d :: ds else d :: insertCand c ds

/-- Stable sort by timestamp, the model of `list.sort(key=lambda x: x[0])`
(Python list.sort is stable; insertion sort by a total preorder is a stable
sort, and the code only consumes element `[0]` of the sorted list). -/
def sortCands : List Cand → List Cand
  | [] => []
  | c :: cs => insertCand c (sortCands cs)

/-- First element of the list achieving the minimal timestamp (scan order
tie-break); used only in specifications and proofs. -/
def firstMinC (a : Cand) : List Cand → Cand
  | [] => a
  | b :: bs => if dtLe a.ts (firstMinC b bs).ts then a else firstMinC b bs

/-- Model of `all_found_dates.sort(...)` followed by taking
`all_found_dates[0][1]`: the display text of the earliest candidate. -/
def selectEarliest : List Cand → Option String
  | [] => none
  | a :: l => some (((sortCands (a :: l)).headD a).display)

/-- `dropLit lit s` consumes the literal `lit` from the front of `s`. -/
def dropLit : Chars → Chars → Option Chars
  | [], s => some s
  | _ :: _, [] => none
  | p :: ps, c :: cs => if p = c then dropLit ps cs else none

/-- The month alternation of the date regexes, in the exact order the
alternatives appear in the pattern (full names first, then abbreviations).
In these patterns the month name is always followed by a space or a comma, so
taking the first alternative that is a literal head of the text coincides with
the backtracking semantics of the Python alternation. -/
def monthAlternatives : List String :=
  ["January", "February", "March", "April", "May", "June", "July", "August",
   "September", "October", "November", "December",
   "Jan", "Feb", "Mar", "Apr", "May", "Jun", "Jul", "Aug", "Sep", "Oct", "Nov", "Dec"]

def matchAlts : List String → Chars → Option (String × Chars)
  | [], _ => none
  | a :: as, s =>
    match dropLit a.toList s with
    | some rest => some (a, rest)
    | none => matchAlts as s

def matchMonth (s : Chars) : Option (String × Chars) := matchAlts monthAlternatives s

/-- Candidates for `(\d{1,2})` at the head of `s`, greedy first (two digits,
then one), each paired with the remaining text. -/
def digits1or2 : Chars → List (Chars × Chars)
  | c1 :: c2 :: rest =>
    if isDig c1 then
      if isDig c2 then [([c1, c2], rest), ([c1], c2 :: rest)] else [([c1], c2 :: rest)]
    else []
  | [c1] => if isDig c1 then [([c1], [])] else []
  | [] => []

/-- `(\d{2})` at the head of `s`. -/
def digits2 : Chars → Option (Chars × Chars)
  | c1 :: c2 :: rest => if isDig c1 && isDig c2 then some ([c1, c2], rest) else none
  | _ => none

/-- `(\d{4})` at the head of `s`. -/
def digits4 : Chars → Option (Chars × Chars)
  | c1 :: c2 :: c3 :: c4 :: rest =>
    if isDig c1 && isDig c2 && isDig c3 && isDig c4 then some ([c1, c2, c3, c4], rest) else none
  | _ => none

def isAPM (c : Char) : Bool := c = 'A' || c = 'P' || c = 'M'

/-- Groups of the timed date pattern
`(Month) (\d{1,2}), (\d{4}) at (\d{1,2}):(\d{2})(?::(\d{2}))? ([APM]{2})`,
kept as the raw matched strings the way `re` group access returns them. -/
structure TimedG where
  month : String
  day : Chars
  year : Chars
  hour : Chars
  minute : Chars
  second : Option Chars
  ampm : Chars
deriving DecidableEq

/-- Candidates for the optional seconds group `(?::(\d{2}))?`, greedy first. -/
def optSeconds (s : Chars) : List (Option Chars × Chars) :=
  (match s with
   | ':' :: c1 :: c2 :: rest =>
     if isDig c1 && isDig c2 then [(some [c1, c2], rest)] else []
   | _ => []) ++ [(none, s)]

/-- Attempt the timed date pattern anchored at the head of `s`, returning the
groups and the remaining text after the match. -/
def tryTimedAt (s : Chars) : Option (TimedG × Chars) :=
  match matchMonth s with
  | none => none
  | some (mon, r1) =>
    match r1 with
    | ' ' :: r2 =>
      (digits1or2 r2).findSome? fun dr =>
        match dr.2 with
        | ',' :: ' ' :: r4 =>
          match digits4 r4 with
          | some (year, r5) =>
            match dropLit " at ".toList r5 with
            | some r6 =>
              (digits1or2 r6).findSome? fun hr =>
                match hr.2 with
                | ':' :: r8 =>
                  match digits2 r8 with
                  | some (minute, r9) =>
                    (optSeconds r9).findSome? fun sr =>
                      match sr.2 with
                      | ' ' :: a :: b :: r11 =>
                        if isAPM a && isAPM b then
                          some (⟨mon, dr.1, year, hr.1, minute, sr.1, [a, b]⟩, r11)
                        else none
                      | _ => none
                  | none => none
                | _ => none
            | none => none
          | none => none
        | _ => none
    | _ => none

/-- Model of `re.search` for the timed pattern: first position where the
pattern matches. -/
def searchTimed : Chars → Option TimedG
  | [] => none
  | c :: cs =>
    match tryTimedAt (c :: cs) with
    | some (g, _) => some g
    | none => searchTimed cs

/-- Groups of the simple date pattern `(Month) (\d{1,2}), (\d{4})`. -/
structure SimpleG where
  month : String
  day : Chars
  year : Chars
deriving DecidableEq

def trySimpleAt (s : Chars) : Option (SimpleG × Chars) :=
  match matchMonth s with
  | none => none
  | some (mon, r1) =>
    match r1 with
    | ' ' :: r2 =>
      (digits1or2 r2).findSome? fun dr =>
        match dr.2 with
        | ',' :: ' ' :: r4 =>
          match digits4 r4 with
          | some (year, r5) => some (⟨mon, dr.1, year⟩, r5)
          | none => none
        | _ => none
    | _ => none

def searchSimple : Chars → Option SimpleG
  | [] => none
  | c :: cs =>
    match trySimpleAt (c :: cs) with
    | some (g, _) => some g
    | none => searchSimple cs

/-- Groups of the day-first pattern `(\d{1,2}) (Month),? (\d{4})`. -/
structure AltG where
  day : Chars
  month : String
  year : Chars
deriving DecidableEq

/-- Candidates for `,? ` (optional comma then space), greedy first. -/
def optComma (s : Chars) : List Chars :=
  (match s with
   | ',' :: ' ' :: rest => [rest]
   | _ => []) ++
  (match s with
   | ' ' :: rest => [rest]
   | _ => [])

def tryAltAt (s : Chars) : Option (AltG × Chars) :=
  (digits1or2 s).findSome? fun dr =>
    match dr.2 with
    | ' ' :: r2 =>
      match matchMonth r2 with
      | some (mon, r3) =>
        (optComma r3).findSome? fun r4 =>
          match digits4 r4 with
          | some (year, r5) => some (⟨dr.1, mon, year⟩, r5)
          | none => none
      | none => none
    | _ => none

def searchAlt : Chars → Option AltG
  | [] => none
  | c :: cs =>
    match tryAltAt (c :: cs) with
    | some (g, _) => some g
    | none => searchAlt cs

/-- The `month_map` dictionary with default 1 (`month_map.get(month, 1)`). -/
def month_map (m : String) : Nat :=
  if m = "January" ∨ m = "Jan" then 1
  else if m = "February" ∨ m = "Feb" then 2
  else if m = "March" ∨ m = "Mar" then 3
  else if m = "April" ∨ m = "Apr" then 4
  else if m = "May" then 5
  else if m = "June" ∨ m = "Jun" then 6
  else if m = "July" ∨ m = "Jul" then 7
  else if m = "August" ∨ m = "Aug" then 8
  else if m = "September" ∨ m = "Sep" then 9
  else if m = "October" ∨ m = "Oct" then 10
  else if m = "November" ∨ m = "Nov" then 11
  else if m = "December" ∨ m = "Dec" then 12
  else 1

def isLeap (y : Nat) : Bool := y % 4 == 0 && (y % 100 != 0 || y % 400 == 0)

def daysInMonth (y m : Nat) : Nat :=
  if m = 2 then (if isLeap y then 29 else 28)
  else if m = 4 ∨ m = 6 ∨ m = 9 ∨ m = 11 then 30
  else 31

/-- Model of the `datetime.datetime(year, month, day, hour, minute, second)`
constructor: `none` models the `ValueError` raised on out-of-range components,
which the code catches and which drops the candidate. -/
def mkDatetime (y mo d h mi s : Nat) : Option PyDateTime :=
  if 1 ≤ y ∧ y ≤ 9999 ∧ 1 ≤ mo ∧ mo ≤ 12 ∧ 1 ≤ d ∧ d ≤ daysInMonth y mo ∧
     h ≤ 23 ∧ mi ≤ 59 ∧ s ≤ 59 then
    some ⟨y, mo, d, h, mi, s⟩
  else none

/-- The AM/PM hour adjustment applied to group 4 using group 7. -/
def timedHour (g : TimedG) : Nat :=
  let h := natOfDigits g.hour
  if g.ampm = ['P', 'M'] ∧ h < 12 then h + 12
  else if g.ampm = ['A', 'M'] ∧ h = 12 then 0
  else h

def timedSecond (g : TimedG) : Nat :=
  match g.second with
  | some s => natOfDigits s
  | none => 0

/-- Candidate built from a timed match in the log-span path: the display text
is the whole raw span text (`formatted_date = span_text`). -/
def candFromTimedSpan (txt : Chars) (g : TimedG) : Option Cand :=
  (mkDatetime (natOfDigits g.year) (month_map g.month) (natOfDigits g.day)
      (timedHour g) (natOfDigits g.minute) (timedSecond g)).map
    (fun dt => ⟨dt, String.mk txt⟩)

/-- Candidate built from a simple-date match in the log-span path:
`f"{group(1)} {group(2)}, {group(3)}"` over the raw group strings. -/
def candFromSimpleSpan (g : SimpleG) : Option Cand :=
  (mkDatetime (natOfDigits g.year) (month_map g.month) (natOfDigits g.day) 0 0 0).map
    (fun dt => ⟨dt, g.month ++ " " ++ String.mk g.day ++ ", " ++ String.mk g.year⟩)

/-- Candidate built from a day-first match in the log-span path:
`f"{group(2)} {group(1)}, {group(3)}"` over the raw group strings. -/
def candFromAltSpan (g : AltG) : Option Cand :=
  (mkDatetime (natOfDigits g.year) (month_map g.month) (natOfDigits g.day) 0 0 0).map
    (fun dt => ⟨dt, g.month ++ " " ++ String.mk g.day ++ ", " ++ String.mk g.year⟩)

/-- Candidates contributed by one span text in the log-span scanning path.
The guards mirror `if date_match and not time_date_match` and
`if alt_date_match and not time_date_match and not date_match`. -/
def spanCandidates (txt : Chars) : List Cand :=
  (match searchTimed txt with
   | some g => (candFromTimedSpan txt g).toList
   | none => []) ++
  (match searchSimple txt, searchTimed txt with
   | some g, none => (candFromSimpleSpan g).toList
   | _, _ => []) ++
  (match searchAlt txt, searchTimed txt, searchSimple txt with
   | some g, none, none => (candFromAltSpan g).toList
   | _, _, _ => [])

/-- All candidates collected from the JS-harvested spans, in scan order. -/
def logCandidates (spans : List String) : List Cand :=
  spans.flatMap (fun s => spanCandidates s.toList)

/-- Model of `re.findall` for the timed pattern: non-overlapping matches,
scanning left to right and resuming after each match. The fuel argument is
bounded by the text length; every successful match consumes at least one
character, so the fuel is never exhausted. -/
def findAllTimedAux : Nat → Chars → List TimedG
  | 0, _ => []
  | _ + 1, [] => []
  | fuel + 1, c :: cs =>
    match tryTimedAt (c :: cs) with
    | some (g, rest) => g :: findAllTimedAux fuel rest
    | none => findAllTimedAux fuel cs

def findAllTimed (s : Chars) : List TimedG := findAllTimedAux s.length s

def findAllSimpleAux : Nat → Chars → List SimpleG
  | 0, _ => []
  | _ + 1, [] => []
  | fuel + 1, c :: cs =>
    match trySimpleAt (c :: cs) with
    | some (g, rest) => g :: findAllSimpleAux fuel rest
    | none => findAllSimpleAux fuel cs

def findAllSimple (s : Chars) : List SimpleG := findAllSimpleAux s.length s

def findAllAltAux : Nat → Chars → List AltG
  | 0, _ => []
  | _ + 1, [] => []
  | fuel + 1, c :: cs =>
    match tryAltAt (c :: cs) with
    | some (g, rest) => g :: findAllAltAux fuel rest
    | none => findAllAltAux fuel cs

def findAllAlt (s : Chars) : List AltG := findAllAltAux s.length s

/-- Candidate from a timed `findall` tuple in the page-source path: here the
display is reconstructed,
`f"{month} {day}, {year} at {match[3]}:{match[4]}"` plus optional seconds and
the AM/PM marker, where `day` and `year` are the parsed integers and
`match[3]`, `match[4]`, `match[5]`, `match[6]` are the raw group strings. -/
def candFromTimedPS (g : TimedG) : Option Cand :=
  (mkDatetime (natOfDigits g.year) (month_map g.month) (natOfDigits g.day)
      (timedHour g) (natOfDigits g.minute) (timedSecond g)).map
    (fun dt =>
      ⟨dt, g.month ++ " " ++ toString (natOfDigits g.day) ++ ", " ++
            toString (natOfDigits g.year) ++ " at " ++ String.mk g.hour ++ ":" ++
            String.mk g.minute ++
            (match g.second with
             | some sec => ":" ++ String.mk sec
             | none => "") ++ " " ++ String.mk g.ampm⟩)

/-- Candidate from a simple-date `findall` tuple in the page-source path
(`f"{month} {day}, {year}"` with `day`, `year` the parsed integers). -/
def candFromSimplePS (g : SimpleG) : Option Cand :=
  (mkDatetime (natOfDigits g.year) (month_map g.month) (natOfDigits g.day) 0 0 0).map
    (fun dt => ⟨dt, g.month ++ " " ++ toString (natOfDigits g.day) ++ ", " ++
                     toString (natOfDigits g.year)⟩)

/-- Candidate from a day-first `findall` tuple in the page-source path. -/
def candFromAltPS (g : AltG) : Option Cand :=
  (mkDatetime (natOfDigits g.year) (month_map g.month) (natOfDigits g.day) 0 0 0).map
    (fun dt => ⟨dt, g.month ++ " " ++ toString (natOfDigits g.day) ++ ", " ++
                     toString (natOfDigits g.year)⟩)

/-- Candidates contributed by the page-source fallback path: the loop
`for pattern in date_patterns: matches = re.findall(pattern, page_source)`
runs every pattern over the whole source, so candidates of all three patterns
are concatenated pattern-major. -/
def pageSourceCandidates (ps : Chars) : List Cand :=
  (findAllTimed ps).filterMap candFromTimedPS ++
  (findAllSimple ps).filterMap candFromSimplePS ++
  (findAllAlt ps).filterMap candFromAltPS

/-- Groups of the creation-indication pattern
`(Month) (\d{1,2}), (\d{4})(?: at (\d{1,2}):(\d{2})(?::(\d{2}))? ([APM]{2}))?`:
a simple date with an optional time part. -/
structure CreationG where
  month : String
  day : Chars
  year : Chars
  time : Option (Chars × Chars × Option Chars × Chars)
deriving DecidableEq

/-- Candidates for the optional time part of the creation pattern, greedy
first (with time, then without). -/
def optTimePart (s : Chars) : List (Option (Chars × Chars × Option Chars × Chars) × Chars) :=
  (match dropLit " at ".toList s with
   | some r1 =>
     (digits1or2 r1).flatMap fun hr =>
       match hr.2 with
       | ':' :: r3 =>
         match digits2 r3 with
         | some (minute, r4) =>
           (optSeconds r4).filterMap fun sr =>
             match sr.2 with
             | ' ' :: a :: b :: r6 =>
               if isAPM a && isAPM b then some (some (hr.1, minute, sr.1, [a, b]), r6)
               else none
             | _ => none
         | none => []
       | _ => []
   | none => []) ++ [(none, s)]

def tryCreationAt (s : Chars) : Option (CreationG × Chars) :=
  match matchMonth s with
  | none => none
  | some (mon, r1) =>
    match r1 with
    | ' ' :: r2 =>
      (digits1or2 r2).findSome? fun dr =>
        match dr.2 with
        | ',' :: ' ' :: r4 =>
          match digits4 r4 with
          | some (year, r5) =>
            (optTimePart r5).findSome? fun tp => some (⟨mon, dr.1, year, tp.1⟩, tp.2)
          | none => none
        | _ => none
    | _ => none

def searchCreation : Chars → Option CreationG
  | [] => none
  | c :: cs =>
    match tryCreationAt (c :: cs) with
    | some (g, _) => some g
    | none => searchCreation cs

/-- The `formatted_date` built in the creation-indication branch from the raw
group strings (lines 312-318). -/
def formatCreation (g : CreationG) : String :=
  match g.time with
  | some (h, mi, sec, ap) =>
    g.month ++ " " ++ String.mk g.day ++ ", " ++ String.mk g.year ++ " at " ++
      String.mk h ++ ":" ++ String.mk mi ++
      (match sec with
       | some s2 => ":" ++ String.mk s2
       | none => "") ++ " " ++ String.mk ap
  | none => g.month ++ " " ++ String.mk g.day ++ ", " ++ String.mk g.year

/-- `\d+` at the head of the text (greedy maximal run, nonempty). -/
def spanDigits (s : Chars) : Option (Chars × Chars) :=
  let d := s.takeWhile isDig
  if d.isEmpty then none else some (d, s.dropWhile isDig)

def isSuffixChar (c : Char) : Bool := c = 'K' || c = 'k' || c = 'M' || c = 'm'

/-- `(?:,\d+)*` at the head of the text, greedy, returning the consumed
characters and the remainder. Fuelled by the text length. -/
def commaPartAux : Nat → Chars → Chars × Chars
  | 0, s => ([], s)
  | fuel + 1, s =>
    match s with
    | c :: r =>
      if c = ',' then
        match spanDigits r with
        | some (d, r2) =>
          let p := commaPartAux fuel r2
          (',' :: (d ++ p.1), p.2)
        | none => ([], c :: r)
      else ([], c :: r)
    | [] => ([], [])

/-- `(?:\.\d+)?` at the head of the text, greedy. -/
def dotPart (s : Chars) : Chars × Chars :=
  match s with
  | c :: r =>
    if c = '.' then
      match spanDigits r with
      | some (d, r2) => ('.' :: d, r2)
      | none => ([], c :: r)
    else ([], c :: r)
  | [] => ([], [])

/-- `[KkMm]?` at the head of the text, greedy. -/
def suffPart (s : Chars) : Chars × Chars :=
  match s with
  | c :: r => if isSuffixChar c then ([c], r) else ([], s)
  | [] => ([], [])

/-- Group 1 of the count patterns, `(\d+(?:,\d+)*(?:\.\d+)?(?:[KkMm])?)`,
anchored at the head of the text. -/
def matchNumTokenAt (s : Chars) : Option (Chars × Chars) :=
  match spanDigits s with
  | none => none
  | some (d0, r0) =>
    let cp := commaPartAux r0.length r0
    let dp := dotPart cp.2
    let sp := suffPart dp.2
    some (d0 ++ cp.1 ++ dp.1 ++ sp.1, sp.2)

def isWs (c : Char) : Bool := c = ' ' || c = '\t' || c = '\n' || c = '\r'

/-- Model of `str.strip()`: drop ASCII whitespace from both ends. -/
def pyStrip (s : String) : String :=
  String.mk (((s.toList.dropWhile isWs).reverse.dropWhile isWs).reverse)

/-- `\s+` at the head of the text. -/
def wsPlus (s : Chars) : Option Chars :=
  match s with
  | c :: cs => if isWs c then some (cs.dropWhile isWs) else none
  | [] => none

/-- Case-insensitive (when `ci`) literal consumption, for the field word of
the count regexes under `re.IGNORECASE`. -/
def dropLitCi (ci : Bool) : Chars → Chars → Option Chars
  | [], s => some s
  | _ :: _, [] => none
  | p :: ps, c :: cs =>
    if (if ci then pyCharLower p = pyCharLower c else p = c) then dropLitCi ci ps cs
    else none

/-- Model of `re.search` for the count patterns
`(\d+(?:,\d+)*(?:\.\d+)?(?:[KkMm])?)\s+<word>s?`: the captured numeric group
of the first match. The optional `(?:view\s+)?` lead of the upvote and share
patterns is omitted because it never changes the captured group. -/
def searchCountWord (ci : Bool) (word : String) : Chars → Option Chars
  | [] => none
  | c :: cs =>
    match
      (match matchNumTokenAt (c :: cs) with
       | some (g, r1) =>
         (match wsPlus r1 with
          | some r2 =>
            (match dropLitCi ci word.toList r2 with
             | some _ => some g
             | none => none)
          | none => none)
       | none => none) with
    | some g => some g
    | none => searchCountWord ci word cs

/-- Deterministic full-string checker for the plausibility pattern
`^\d+(?:,\d+)*(?:\.\d+)?[KkMm]?$`: the part after the leading digit run. -/
def afterIntPart : Chars → Bool
  | [] => true
  | c :: r =>
    if c = ',' then !(r.takeWhile isDig).isEmpty && afterIntPart (r.dropWhile isDig)
    else if c = '.' then
      !(r.takeWhile isDig).isEmpty &&
        (match r.dropWhile isDig with
         | [] => true
         | [c2] => isSuffixChar c2
         | _ => false)
    else isSuffixChar c && r.isEmpty
termination_by s => s.length
decreasing_by
  exact Nat.lt_succ_of_le (List.Sublist.length_le (List.dropWhile_sublist isDig))

/-- Full-string membership in the numeric plausibility pattern
`^\d+(?:,\d+)*(?:\.\d+)?[KkMm]?$`. -/
def numericPatternOk (s : Chars) : Bool :=
  !(s.takeWhile isDig).isEmpty && afterIntPart (s.dropWhile isDig)

/-- Model of Python `float` applied to the decimal strings that arise in this
code (`digits`, `digits.digits`): exact rational value, `none` modelling the
`ValueError` raised on any other shape (for instance a string still containing
commas). Floating-point rounding is not modelled; every theorem below relates
two expressions that perform the same arithmetic, so it is independent of the
rounding model, and the concrete witnesses use values exact in binary-adjacent
decimal arithmetic as well. -/
def pyFloat (s : Chars) : Option Rat :=
  let intPart := s.takeWhile isDig
  let rest := s.dropWhile isDig
  match rest with
  | [] => if intPart.isEmpty then none else some ((natOfDigits intPart : Rat))
  | c :: frac =>
    if c = '.' then
      if frac.all isDig ∧ (intPart ≠ [] ∨ frac ≠ []) then
        some ((natOfDigits intPart : Rat) + (natOfDigits frac : Rat) / ((10 : Rat) ^ frac.length))
      else none
    else none

/-- The K/M count normalisation inlined at every count-extractor return site:
`if "k" in v.lower(): str(int(float(v.lower().replace("k", "")) * 1000))`,
likewise for `m` with 1,000,000, else `v.replace(",", "")`. `none` models the
`ValueError` float can raise (caught only by the outer handler). -/
def normalize_count (v : Chars) : Option String :=
  let lv := pyLowerC v
  if lv.contains 'k' then
    (pyFloat (lv.filter (fun c => c ≠ 'k'))).map (fun q => toString (Rat.floor (q * 1000)))
  else if lv.contains 'm' then
    (pyFloat (lv.filter (fun c => c ≠ 'm'))).map (fun q => toString (Rat.floor (q * 1000000)))
  else
    some (String.mk (v.filter (fun c => c ≠ ',')))

/-- Full-string membership in `^\d+(\.\d+)?[Kk]$`. -/
def isKForm (s : Chars) : Bool :=
  let d1 := s.takeWhile isDig
  let r1 := s.dropWhile isDig
  !d1.isEmpty &&
    (match r1 with
     | ['k'] => true
     | ['K'] => true
     | '.' :: r2 =>
       let d2 := r2.takeWhile isDig
       let r3 := r2.dropWhile isDig
       !d2.isEmpty && (r3 = ['k'] || r3 = ['K'])
     | _ => false)

/-- Full-string membership in `^\d+(\.\d+)?[Mm]$`. -/
def isMForm (s : Chars) : Bool :=
  let d1 := s.takeWhile isDig
  let r1 := s.dropWhile isDig
  !d1.isEmpty &&
    (match r1 with
     | ['m'] => true
     | ['M'] => true
     | '.' :: r2 =>
       let d2 := r2.takeWhile isDig
       let r3 := r2.dropWhile isDig
       !d2.isEmpty && (r3 = ['m'] || r3 = ['M'])
     | _ => false)

/-- Suffix-free count strings: the plausibility pattern without a trailing
`K`/`M` marker. -/
def isPlainForm (s : Chars) : Bool :=
  numericPatternOk s && s.all (fun c => !isSuffixChar c)

/-- The browser session, modelled as one oracle per driver call site.
`Except.error msg` models a raised WebDriver exception whose `str(e)` is
`msg`. `find` maps an XPath selector string to the `.text` contents of the
elements `find_elements` returns (`find_element` corresponds to the head of
that list, raising when it is empty). The `exec...` fields are the results of
the `execute_script` calls; where the script itself filters its return value,
that guarantee is stated as an explicit hypothesis of the relevant theorem
rather than baked into the type. -/
structure Driver where
  find : String → Except String (List String)
  execDateSpans : Except String (List String)
  execCreation : Except String (Option (String × String))
  execViewsJs : Except String (Option String)
  execUpvoteSpec : Except String (Option String)
  execUpvoteGen : Except String (Option String)
  execCommentSpec : Except String (Option String)
  execCommentJs : Except String (Option String)
  execSharesJs : Except String (Option String)
  dateCurrentUrl : Except String String
  getLog : Except String Unit
  logPageSource : Except String String
  logCurrentUrl : Except String String
  navBack1 : Except String Unit
  navBack2 : Except String Unit
  navBack3 : Except String Unit
  navBack4 : Except String Unit
  navAnswer : Except String Unit
  waitBody : Except String Unit
  scrapeCurrentUrl : Except String String
  title : Except String String
  authorCurrentUrl : Except String String
  nowDate : String
  nowIso : String

def authorSelectors : List String :=
  ["//div[contains(@class, \x27q-box\x27)]//a[contains(@class, \x27qu-bold\x27)]/span",
   "//div[contains(@class, \x27q-box\x27)]//span[contains(@class, \x27qu-bold\x27)]",
   "//span[contains(@class, \x27qu-bold--done\x27)]",
   "//div[contains(@class, \x27qu-borderBottom\x27)]//span[contains(@class, \x27qu-bold\x27)]"]

def viewXpath : String :=
  "//div[contains(@class, \x27qu-color--gray_light\x27)]//span[contains(@class, \x27c1h7helg\x27)][1]"

def viewSelectors : List String :=
  ["//span[contains(text(), \x27views\x27)]",
   "//div[contains(text(), \x27views\x27)]",
   "//span[contains(@class, \x27c1h7helg\x27)]"]

def upvoteXpath : String :=
  "/html/body/div[2]/div/div[2]/div/div[3]/div/div/div/div[1]/div[1]/div[6]/div/div/div/div[1]/div[1]/div/div/div/button/div[2]/div/span/span[4]/div/span[2]"

def upvoteButtonsXpath : String := "//button[contains(@aria-label, \x27Upvote\x27)]"

def upvoteSelectors : List String :=
  ["//span[contains(text(), \x27upvotes\x27)]",
   "//div[contains(text(), \x27upvotes\x27)]",
   "//div[contains(@class, \x27qu-color--gray_light\x27)]//span[contains(@class, \x27c1h7helg\x27)][contains(text(), \x27upvotes\x27)]"]

def commentXpath : String :=
  "/html/body/div[2]/div/div[2]/div/div[3]/div/div/div/div[1]/div[1]/div[6]/div/div/div/div[1]/div[2]/div/div/div/button/div/div[2]/span[2]"

def commentSpansXpath : String :=
  "//button[contains(@aria-label, \x27comment\x27) or contains(@aria-label, \x27Comment\x27)]//div[contains(@class, \x27q-text\x27)]//span[contains(@class, \x27q-text\x27) and not(contains(@class, \x27qu-visibility--hidden\x27))]"

def commentButtonsXpath : String :=
  "//button[contains(@aria-label, \x27Comment\x27) or contains(@aria-label, \x27comment\x27)]"

def commentSelectors : List String :=
  ["//span[contains(text(), \x27comments\x27)]",
   "//div[contains(text(), \x27comments\x27)]"]

def shareSelectors : List String :=
  ["//span[contains(text(), \x27shares\x27)]",
   "//div[contains(text(), \x27shares\x27)]",
   "//div[contains(@class, \x27qu-color--gray_light\x27)]//span[contains(@class, \x27c1h7helg\x27)][contains(text(), \x27shares\x27)]"]

def shareButtonsXpath : String := "//button[contains(@aria-label, \x27Share\x27)]"

def deletionIndicators : List String :=
  ["//div[contains(text(), \x27Quora deleted this answer\x27)]",
   "//div[contains(text(), \x27deleted by Quora Moderation\x27)]",
   "//div[contains(text(), \x27Quora deleted this\x27)]"]

/-- The element loop of the author cascade: first element whose stripped text
is nonempty, longer than one character and free of the substring `answer`
(case-insensitively). -/
def firstValidatedAuthor : List String → Option String
  | [] => none
  | t :: ts =>
    let name := pyStrip t
    if name ≠ "" ∧ name.length > 1 ∧ strContains (pyLowerS name) "answer" = false then some name
    else firstValidatedAuthor ts

/-- The selector loop of the author cascade; a failing `find_elements` call is
caught by the inner handler and skips to the next selector. -/
def authorFromSelectors (d : Driver) : List String → Option String
  | [] => none
  | sel :: sels =>
    match d.find sel with
    | .error _ => authorFromSelectors d sels
    | .ok texts =>
      match firstValidatedAuthor texts with
      | some n => some n
      | none => authorFromSelectors d sels

/-- Model of Python `str.split(sep)` with a nonempty separator, splitting at
every non-overlapping occurrence left to right, keeping empty fields. Fuelled
by the text length; each step consumes at least one character. -/
def pySplitGo (sep : Chars) : Nat → Chars → List Chars
  | _, [] => [[]]
  | 0, s => [s]
  | fuel + 1, c :: cs =>
    if startsWithL sep (c :: cs) then
      [] :: pySplitGo sep fuel (List.drop sep.length (c :: cs))
    else
      match pySplitGo sep fuel cs with
      | f :: rest => (c :: f) :: rest
      | [] => [[c]]

def pySplit (sep s : String) : List String :=
  (pySplitGo sep.toList s.toList.length s.toList).map String.mk

/-- The URL fallback of the author extractor:
`current_url.split("/answer/")[1].split("/")[0].replace("-", " ")`, the
single-character replace modelled as a map. -/
def urlAuthorFallback (u : String) : String :=
  String.mk (((pySplit "/" ((pySplit "/answer/" u).getD 1 "")).getD 0 "").toList.map
    (fun c => if c = '-' then ' ' else c))

/-- Model of `extract_author_name`. The final return of the outer `except`
handler is the string `"Error extracting name"`; it is reached when an
exception escapes the selector loop, which in this model happens exactly when
the `current_url` query fails. -/
def extract_author_name (d : Driver) : String :=
  match authorFromSelectors d authorSelectors with
  | some n => n
  | none =>
    match d.authorCurrentUrl with
    | .error _ => "Error extracting name"
    | .ok u =>
      if strContains u "/answer/" then urlAuthorFallback u
      else "Name not found"

/-- Element loop of the text-based count strategies: first element whose
stripped, lowercased text contains `contWord` and matches the count regex; on
a regex hit the value is normalised; a `ValueError` in the normalisation
(`none`) is caught by the per-selector handler, abandoning the remaining
elements of this selector. -/
def countFromTexts (contWord : String) (w : String) (ci : Bool) : List String → Option String
  | [] => none
  | t :: rest =>
    let text := pyLowerS (pyStrip t)
    if strContains text contWord then
      match searchCountWord ci w text.toList with
      | some g => normalize_count g
      | none => countFromTexts contWord w ci rest
    else countFromTexts contWord w ci rest

/-- Selector loop of the text-based count strategies; a failing
`find_elements` call or an abandoned element loop moves to the next
selector. -/
def countFromSelectors (d : Driver) (contWord : String) (w : String) (ci : Bool) :
    List String → Option String
  | [] => none
  | sel :: sels =>
    match d.find sel with
    | .error _ => countFromSelectors d contWord w ci sels
    | .ok ts =>
      match countFromTexts contWord w ci ts with
      | some r => some r
      | none => countFromSelectors d contWord w ci sels

/-- First stripped element text that is nonempty and digit-only (no length
bound), as used by the comment-span, comment-button and share-button
strategies. -/
def digitOnlyFirst : List String → Option String
  | [] => none
  | t :: rest =>
    let c := pyStrip t
    if c ≠ "" ∧ pyIsDigitS c then some c else digitOnlyFirst rest

/-- Upvote button-text strategy: all digits of the stripped button text,
accepted when nonempty and shorter than 10 characters. -/
def upvoteButtonDigits : List String → Option String
  | [] => none
  | t :: rest =>
    let digits := (pyStrip t).toList.filter isDig
    if digits ≠ [] ∧ digits.length < 10 then some (String.mk digits) else upvoteButtonDigits rest

/-- Comment button-text strategy: the stripped text itself when digit-only,
otherwise the joined digits of the text when nonempty (no length bound in
either branch). -/
def commentButtonTexts : List String → Option String
  | [] => none
  | t :: rest =>
    let bt := pyStrip t
    if bt ≠ "" ∧ pyIsDigitS bt then some bt
    else
      let digits := bt.toList.filter isDig
      if digits ≠ [] then some (String.mk digits) else commentButtonTexts rest

/-- Model of `extract_view_count`. -/
def extract_view_count (d : Driver) : String :=
  let s1 : Option String :=
    match d.find viewXpath with
    | .ok (t :: _) =>
      let vt := pyStrip t
      if strContains (pyLowerS vt) "views" then
        match searchCountWord false "view" vt.toList with
        | some g => normalize_count g
        | none => none
      else none
    | _ => none
  match s1 with
  | some r => r
  | none =>
    match countFromSelectors d "views" "view" false viewSelectors with
    | some r => r
    | none =>
      match d.execViewsJs with
      | .ok (some txt) =>
        (match searchCountWord false "view" txt.toList with
         | some g => (normalize_count g).getD "0"
         | none => "0")
      | _ => "0"

/-- Model of `extract_upvote_count`. -/
def extract_upvote_count (d : Driver) : String :=
  let s1 : Option String :=
    match d.find upvoteXpath with
    | .ok (t :: _) =>
      let c := pyStrip t
      if c ≠ "" ∧ pyIsDigitS c ∧ c.length < 10 then some c else none
    | _ => none
  match s1 with
  | some r => r
  | none =>
    let s2 : Option String :=
      match d.execUpvoteSpec with
      | .ok (some s) => if s ≠ "" then some s else none
      | _ => none
    match s2 with
    | some r => r
    | none =>
      let s3 : Option String :=
        match d.execUpvoteGen with
        | .ok (some s) => if s ≠ "" then some s else none
        | _ => none
      match s3 with
      | some r => r
      | none =>
        let s4 : Option String :=
          match d.find upvoteButtonsXpath with
          | .ok ts => upvoteButtonDigits ts
          | .error _ => none
        match s4 with
        | some r => r
        | none =>
          match countFromSelectors d "upvote" "upvote" true upvoteSelectors with
          | some r => r
          | none => "0"

/-- Model of `extract_comment_count`. -/
def extract_comment_count (d : Driver) : String :=
  let s1 : Option String :=
    match d.find commentXpath with
    | .ok (t :: _) =>
      let c := pyStrip t
      if c ≠ "" ∧ pyIsDigitS c then some c else none
    | _ => none
  match s1 with
  | some r => r
  | none =>
    let s2 : Option String :=
      match d.execCommentSpec with
      | .ok (some s) => if s ≠ "" then some s else none
      | _ => none
    match s2 with
    | some r => r
    | none =>
      let s3 : Option String :=
        match d.find commentSpansXpath with
        | .ok ts => digitOnlyFirst ts
        | .error _ => none
      match s3 with
      | some r => r
      | none =>
        let s4 : Option String :=
          match d.find commentButtonsXpath with
          | .ok ts => commentButtonTexts ts
          | .error _ => none
        match s4 with
        | some r => r
        | none =>
          let s5 : Option String :=
            match d.execCommentJs with
            | .ok (some s) => if s ≠ "" then some s else none
            | _ => none
          match s5 with
          | some r => r
          | none =>
            match countFromSelectors d "comment" "comment" true commentSelectors with
            | some r => r
            | none => "0"

/-- Model of `extract_share_count`. -/
def extract_share_count (d : Driver) : String :=
  match countFromSelectors d "shares" "share" true shareSelectors with
  | some r => r
  | none =>
    let s2 : Option String :=
      match d.find shareButtonsXpath with
      | .ok ts => digitOnlyFirst ts
      | .error _ => none
    match s2 with
    | some r => r
    | none =>
      match d.execSharesJs with
      | .ok (some txt) =>
        (match searchCountWord true "share" txt.toList with
         | some g => (normalize_count g).getD "0"
         | none => "0")
      | _ => "0"

/-- Break a character list at the first occurrence of `c`; the second
component is `some` of the remainder when `c` occurs. -/
def breakAtChar (c : Char) : Chars → Chars × Option Chars
  | [] => ([], none)
  | x :: xs =>
    if x = c then ([], some xs)
    else
      let p := breakAtChar c xs
      (x :: p.1, p.2)

/-- Model of `urllib.parse.urlparse` for the absolute URLs this scraper
handles: `(scheme, netloc, path, query, fragment)`. -/
def pyUrlParse (url : String) : String × String × String × String × String :=
  let f := breakAtChar '#' url.toList
  let frag := f.2.getD []
  let q := breakAtChar '?' f.1
  let query := q.2.getD []
  let rest := String.mk q.1
  if strContains rest "://" then
    let scheme := (rest.splitOn "://").getD 0 ""
    let after := String.intercalate "://" ((rest.splitOn "://").drop 1)
    let netloc := String.mk (after.toList.takeWhile (fun c2 => c2 ≠ '/'))
    let path := String.mk (after.toList.dropWhile (fun c2 => c2 ≠ '/'))
    (scheme, netloc, path, String.mk query, String.mk frag)
  else
    ("", "", rest, String.mk query, String.mk frag)

/-- Model of `urllib.parse.urlunsplit`. -/
def pyUrlUnsplit (scheme netloc path query frag : String) : String :=
  (if scheme ≠ "" then scheme ++ ":" else "") ++
  (if netloc ≠ "" then "//" ++ netloc else "") ++ path ++
  (if query ≠ "" then "?" ++ query else "") ++
  (if frag ≠ "" then "#" ++ frag else "")

/-- Model of `extract_base_url`: truncate the path at `/answer/`. -/
def extract_base_url (answer_url : String) : String :=
  let parsed := pyUrlParse answer_url
  let path := parsed.2.2.1
  if strContains path "/answer/" then
    pyUrlUnsplit parsed.1 parsed.2.1 ((path.splitOn "/answer/").getD 0 "")
      parsed.2.2.2.1 parsed.2.2.2.2
  else answer_url

/-- The access-restriction indicators tested against the log page source.
The third entry of the Python list is the boolean
`"login" in driver.current_url.lower()`, which the loop skips via its
`isinstance(indicator, str)` test, so only the string indicators matter. -/
def restrictedIndicators : List String :=
  ["Something went wrong",
   "You need to login to view this page",
   "Log in to Quora",
   "Page not found",
   "This content isn\x27t available right now",
   "Error",
   "The page you requested was not found"]

def logRestricted (ps : String) : Bool :=
  restrictedIndicators.any (fun ind => strContains ps ind)

/-- The log-span phase of `extract_post_date` (lines 98-327): `none` when the
phase falls through to the page-source scan, either because access is
restricted, because no spans or candidates were found, or because an
exception inside the `try` block (including one raised while navigating back)
was swallowed by the handler at line 328. -/
def dateBranch1 (d : Driver) (page_source : String) : Option String :=
  if logRestricted page_source then none
  else
    match d.execDateSpans with
    | .error _ => none
    | .ok spans =>
      if spans.isEmpty then none
      else
        match logCandidates spans with
        | [] =>
          match d.execCreation with
          | .error _ => none
          | .ok none => none
          | .ok (some pr) =>
            match searchCreation pr.2.toList with
            | none => none
            | some g =>
              match d.navBack2 with
              | .error _ => none
              | .ok _ => some (formatCreation g)
        | a :: rest =>
          match d.navBack1 with
          | .error _ => none
          | .ok _ => selectEarliest (a :: rest)

/-- The page-source phase of `extract_post_date` (lines 331-427), scanning the
captured log page source with all three patterns. -/
def dateBranch2 (d : Driver) (page_source : String) : Option String :=
  match pageSourceCandidates page_source.toList with
  | [] => none
  | a :: rest =>
    match d.navBack3 with
    | .error _ => none
    | .ok _ => selectEarliest (a :: rest)

/-- Model of `extract_post_date`. An `Except.error` result models an
exception escaping the function: the calls at lines 65 (`current_url`),
74 (`driver.get(log_url)`), 78 (`page_source`), 85 (`current_url` inside the
indicator list) and 431 (the final `driver.get(original_url)`) are outside
every `try` block, so their failures propagate; every other driver failure is
swallowed by one of the two inner handlers and falls through to the next
phase. -/
def extract_post_date (d : Driver) (answer_url : String) : Except String String :=
  match d.dateCurrentUrl with
  | .error e => .error e
  | .ok _ =>
    let _log_url :=
      if !answer_url.endsWith "/log" && !strContains answer_url "/log/" then
        answer_url ++ "/log"
      else answer_url
    match d.getLog with
    | .error e => .error e
    | .ok _ =>
      match d.logPageSource with
      | .error e => .error e
      | .ok page_source =>
        match d.logCurrentUrl with
        | .error e => .error e
        | .ok _ =>
          match dateBranch1 d page_source with
          | some r => .ok r
          | none =>
            match dateBranch2 d page_source with
            | some r => .ok r
            | none =>
              match d.navBack4 with
              | .error e => .error e
              | .ok _ => .ok ("Approx. " ++ d.nowDate)

structure Stats where
  views : String
  upvotes : String
  comments : String
  shares : String
deriving DecidableEq

/-- One scraped result. `is_deleted = none` models the absence of the
`"is_deleted"` key from the Python result dictionary. -/
structure AnswerRecord where
  answer_url : String
  base_url : String
  author : String
  post_date : String
  stats : Stats
  scraped_at : String
  is_deleted : Option Bool
  error : Option String
deriving DecidableEq

/-- The deletion-indicator loop; a failing `find_elements` call aborts the
whole loop through the inner handler, leaving `is_deleted = False`. -/
def checkDeletedAux (d : Driver) : List String → Bool
  | [] => false
  | ind :: rest =>
    match d.find ind with
    | .error _ => false
    | .ok els => if els.isEmpty then checkDeletedAux d rest else true

def checkDeleted (d : Driver) : Bool := checkDeletedAux d deletionIndicators

/-- The body of `scrape_quora_answer` up to the outer handler. -/
def scrapeBody (d : Driver) (url : String) : Except String AnswerRecord :=
  match d.navAnswer with
  | .error e => .error e
  | .ok _ =>
    match d.waitBody with
    | .error e => .error e
    | .ok _ =>
      match d.scrapeCurrentUrl with
      | .error e => .error e
      | .ok _ =>
        match d.title with
        | .error e => .error e
        | .ok _ =>
          let base_url := extract_base_url url
          if checkDeleted d then
            match extract_post_date d url with
            | .error e => .error e
            | .ok pd =>
              .ok ⟨url, base_url, "POST DELETED", pd, ⟨"0", "0", "0", "0"⟩,
                   d.nowIso, some true, none⟩
          else
            let author := extract_author_name d
            match extract_post_date d url with
            | .error e => .error e
            | .ok pd =>
              .ok ⟨url, base_url, author, pd,
                   ⟨extract_view_count d, extract_upvote_count d,
                    extract_comment_count d, extract_share_count d⟩,
                   d.nowIso, some false, none⟩

/-- Model of `scrape_quora_answer`: the outer handler turns any escaping
exception into the error record, whose dictionary has no `is_deleted` key. -/
def scrape_quora_answer (d : Driver) (url : String) : AnswerRecord :=
  match scrapeBody d url with
  | .ok r => r
  | .error e =>
    ⟨url, extract_base_url url, "Error", "Error", ⟨"0", "0", "0", "0"⟩,
     d.nowIso, none, some e⟩

/-- A session in which every query succeeds but yields nothing: no elements,
no script results, a log page with empty source. -/
def blankDriver : Driver :=
  { find := fun _ => .ok []
  , execDateSpans := .ok []
  , execCreation := .ok none
  , execViewsJs := .ok none
  , execUpvoteSpec := .ok none
  , execUpvoteGen := .ok none
  , execCommentSpec := .ok none
  , execCommentJs := .ok none
  , execSharesJs := .ok none
  , dateCurrentUrl := .ok "https://www.quora.com/Some-question/answer/Some-Person"
  , getLog := .ok ()
  , logPageSource := .ok ""
  , logCurrentUrl := .ok "https://www.quora.com/Some-question/answer/Some-Person/log"
  , navBack1 := .ok ()
  , navBack2 := .ok ()
  , navBack3 := .ok ()
  , navBack4 := .ok ()
  , navAnswer := .ok ()
  , waitBody := .ok ()
  , scrapeCurrentUrl := .ok "https://www.quora.com/Some-question/answer/Some-Person"
  , title := .ok "Some question"
  , authorCurrentUrl := .ok "https://www.quora.com/profile/Some-Person"
  , nowDate := "March 5, 2024"
  , nowIso := "2024-03-05T12:00:00" }

/-- Blank session whose `current_url` query raises inside the author
extractor. -/
def authorErrDriver : Driver := { blankDriver with authorCurrentUrl := .error "session crashed" }

/-- Blank session in which navigating to the log page raises. -/
def failLogDriver : Driver := { blankDriver with getLog := .error "net::ERR_CONNECTION_RESET" }

/-- Session whose only populated element is a comment button carrying an
11-digit label. -/
def bigCommentDriver : Driver :=
  { blankDriver with
      find := fun sel => if sel = commentButtonsXpath then .ok ["12345678901"] else .ok [] }

/-- Session in which navigating to the answer page raises an exception whose
message is empty (`str(e) = ""`). -/
def navFailDriver : Driver := { blankDriver with navAnswer := .error "" }

/-- Session showing a deletion notice whose log page still carries a date. -/
def deletedDriver : Driver :=
  { blankDriver with
      find := fun sel =>
        if sel = "//div[contains(text(), \x27Quora deleted this answer\x27)]" then
          .ok ["Quora deleted this answer"]
        else .ok [],
      execDateSpans := .ok ["May 1, 2023"] }

/-- Blank session whose current URL carries an `/answer/` segment whose slug
would fail the author plausibility validator. -/
def urlAuthorDriver : Driver :=
  { blankDriver with
      authorCurrentUrl := .ok "https://www.quora.com/T/answer/answer-man/extra" }

/-- `headND p r` holds when `r` is empty or its head fails `p`; the boundary
condition under which `takeWhile p` stops exactly at a list seam. -/
def headND (p : Char → Bool) : Chars → Bool
  | [] => true
  | c :: _ => !(p c)

theorem dtLe_iff {a b : PyDateTime} :
    dtLe a b = true ↔
      (a.year < b.year ∨ (a.year = b.year ∧ (a.month < b.month ∨ (a.month = b.month ∧
        (a.day < b.day ∨ (a.day = b.day ∧ (a.hour < b.hour ∨ (a.hour = b.hour ∧
        (a.minute < b.minute ∨ (a.minute = b.minute ∧ a.second ≤ b.second)))))))))) := by
  simp [dtLe]

theorem dtLe_refl (a : PyDateTime) : dtLe a a = true := by
  rw [dtLe_iff]; omega

theorem dtLe_trans {a b c : PyDateTime} (h1 : dtLe a b = true) (h2 : dtLe b c = true) :
    dtLe a c = true := by
  rw [dtLe_iff] at h1 h2 ⊢; omega

theorem dtLe_total (a b : PyDateTime) : dtLe a b = true ∨ dtLe b a = true := by
  rw [dtLe_iff, dtLe_iff]; omega

theorem dtLe_of_not {a b : PyDateTime} (h : dtLe a b = false) : dtLe b a = true := by
  rcases dtLe_total a b with h2 | h2
  · rw [h] at h2; exact absurd h2 (by simp)
  · exact h2

theorem sortCands_cons (a : Cand) (l : List Cand) :
    ∃ t, sortCands (a :: l) = firstMinC a l :: t := by
  induction l generalizing a with
  | nil => exact ⟨[], rfl⟩
  | cons b bs ih =>
    obtain ⟨t, ht⟩ := ih b
    show ∃ t2, insertCand a (sortCands (b :: bs)) = firstMinC a (b :: bs) :: t2
    rw [ht]
    by_cases h : dtLe a.ts (firstMinC b bs).ts = true
    · exact ⟨firstMinC b bs :: t, by simp [insertCand, h, firstMinC]⟩
    · refine ⟨insertCand a t, ?_⟩
      have hb : dtLe a.ts (firstMinC b bs).ts = false := by
        cases h2 : dtLe a.ts (firstMinC b bs).ts
        · rfl
        · exact absurd h2 h
      simp [insertCand, hb, firstMinC]

theorem firstMinC_min (a : Cand) (l : List Cand) :
    ∀ d ∈ a :: l, dtLe (firstMinC a l).ts d.ts = true := by
  induction l generalizing a with
  | nil =>
    intro d hd
    simp only [List.mem_singleton] at hd
    rw [hd]
    exact dtLe_refl _
  | cons b bs ih =>
    intro d hd
    cases h : dtLe a.ts (firstMinC b bs).ts with
    | true =>
      simp only [firstMinC, h, if_pos]
      rcases List.mem_cons.mp hd with h1 | h1
      · rw [h1]; exact dtLe_refl _
      · exact dtLe_trans h (ih b d h1)
    | false =>
      simp only [firstMinC, h, Bool.false_eq_true, if_neg, not_false_iff]
      rcases List.mem_cons.mp hd with h1 | h1
      · rw [h1]; exact dtLe_of_not h
      · exact ih b d h1

theorem firstMinC_split (a : Cand) (l : List Cand) :
    ∃ l1 l2, a :: l = l1 ++ firstMinC a l :: l2 ∧
      ∀ d ∈ l1, dtLe d.ts (firstMinC a l).ts = false := by
  induction l generalizing a with
  | nil => exact ⟨[], [], rfl, by simp⟩
  | cons b bs ih =>
    cases h : dtLe a.ts (firstMinC b bs).ts with
    | true => exact ⟨[], b :: bs, by simp [firstMinC, h], by simp⟩
    | false =>
      obtain ⟨l1, l2, heq, hstrict⟩ := ih b
      refine ⟨a :: l1, l2, ?_, ?_⟩
      · simp only [firstMinC, h, Bool.false_eq_true, if_neg, not_false_iff]
        rw [List.cons_append, ← heq]
      · intro d hd
        simp only [firstMinC, h, Bool.false_eq_true, if_neg, not_false_iff]
        rcases List.mem_cons.mp hd with h1 | h1
        · rw [h1]; exact h
        · exact hstrict d h1

/-- C1: for every non-empty list of gathered date candidates, the selection
made by the resolver (stable sort by timestamp, then element 0) returns the display text
of a candidate whose timestamp is minimal, and every candidate occurring
earlier in scan order has a strictly greater timestamp — so among equal
minima the first one in scan order is kept. -/
theorem earliest_selection_stable (l : List Cand) (h : l ≠ []) :
    ∃ c l1 l2, l = l1 ++ c :: l2 ∧ selectEarliest l = some c.display ∧
      (∀ d ∈ l, dtLe c.ts d.ts = true) ∧ (∀ d ∈ l1, dtLe d.ts c.ts = false) := by
  cases l with
  | nil => exact absurd rfl h
  | cons a t =>
    obtain ⟨l1, l2, heq, hstrict⟩ := firstMinC_split a t
    refine ⟨firstMinC a t, l1, l2, heq, ?_, firstMinC_min a t, hstrict⟩
    obtain ⟨t2, ht2⟩ := sortCands_cons a t
    simp [selectEarliest, ht2]

/-- Witness for C1, on the spec example: candidates timestamped 2023-01-05,
2023-01-01T08:00 and 2023-06-01 select the display of the second. -/
theorem earliest_selection_stable_inst :
    (∃ c l1 l2,
      ([⟨⟨2023, 1, 5, 0, 0, 0⟩, "January 5, 2023"⟩,
        ⟨⟨2023, 1, 1, 8, 0, 0⟩, "January 1, 2023 at 8:00 AM"⟩,
        ⟨⟨2023, 6, 1, 0, 0, 0⟩, "June 1, 2023"⟩] : List Cand) = l1 ++ c :: l2 ∧
      selectEarliest
        [⟨⟨2023, 1, 5, 0, 0, 0⟩, "January 5, 2023"⟩,
         ⟨⟨2023, 1, 1, 8, 0, 0⟩, "January 1, 2023 at 8:00 AM"⟩,
         ⟨⟨2023, 6, 1, 0, 0, 0⟩, "June 1, 2023"⟩] = some c.display ∧
      (∀ d ∈ ([⟨⟨2023, 1, 5, 0, 0, 0⟩, "January 5, 2023"⟩,
               ⟨⟨2023, 1, 1, 8, 0, 0⟩, "January 1, 2023 at 8:00 AM"⟩,
               ⟨⟨2023, 6, 1, 0, 0, 0⟩, "June 1, 2023"⟩] : List Cand),
         dtLe c.ts d.ts = true) ∧
      (∀ d ∈ l1, dtLe d.ts c.ts = false)) ∧
    selectEarliest
      [⟨⟨2023, 1, 5, 0, 0, 0⟩, "January 5, 2023"⟩,
       ⟨⟨2023, 1, 1, 8, 0, 0⟩, "January 1, 2023 at 8:00 AM"⟩,
       ⟨⟨2023, 6, 1, 0, 0, 0⟩, "June 1, 2023"⟩] = some "January 1, 2023 at 8:00 AM" :=
  ⟨earliest_selection_stable _ (by decide), by decide⟩

/-- C2 counterexample: in the page-source fallback path the three patterns
are each run over the whole source by `re.findall`, with no exclusivity: the
text `January 1, 2023 at 12:00 PM` matches pattern 1 and nevertheless also
produces a pattern-2 candidate (the midnight `January 1, 2023`). -/
theorem page_source_precedence_violation :
    (findAllTimed "January 1, 2023 at 12:00 PM".toList).filterMap candFromTimedPS ≠ [] ∧
    (findAllSimple "January 1, 2023 at 12:00 PM".toList).filterMap candFromSimplePS ≠ [] ∧
    pageSourceCandidates "January 1, 2023 at 12:00 PM".toList =
      [⟨⟨2023, 1, 1, 12, 0, 0⟩, "January 1, 2023 at 12:00 PM"⟩,
       ⟨⟨2023, 1, 1, 0, 0, 0⟩, "January 1, 2023"⟩] := by
  refine ⟨by decide, by decide, by decide⟩

/-- C2 amended: pattern precedence is exclusive per fragment in the log-span
scanning path only — when pattern 1 matches a span, that span contributes
exactly the pattern-1 candidate and nothing from patterns 2 or 3. -/
theorem log_span_precedence_exclusive (txt : Chars) (g : TimedG)
    (h : searchTimed txt = some g) :
    spanCandidates txt = (candFromTimedSpan txt g).toList := by
  unfold spanCandidates
  rw [h]
  cases h2 : searchSimple txt <;> cases h3 : searchAlt txt <;> simp

/-- Witness for the amended C2 on the span `May 1, 2023 at 3:15 PM`. -/
theorem log_span_precedence_exclusive_inst :
    searchTimed "May 1, 2023 at 3:15 PM".toList =
      some ⟨"May", ['1'], ['2', '0', '2', '3'], ['3'], ['1', '5'], none, ['P', 'M']⟩ ∧
    spanCandidates "May 1, 2023 at 3:15 PM".toList =
      (candFromTimedSpan "May 1, 2023 at 3:15 PM".toList
        ⟨"May", ['1'], ['2', '0', '2', '3'], ['3'], ['1', '5'], none, ['P', 'M']⟩).toList :=
  ⟨by decide, log_span_precedence_exclusive _ _ (by decide)⟩

/-- C7 counterexample: in the log-span path the timed branch sets
`formatted_date = span_text`, so the candidate surfaces the raw span text
verbatim — here it differs from the reconstructed
`<Month> <Day>, <Year> at <Hour>:<Minute> <AM/PM>` form. -/
theorem timed_span_display_is_raw_text :
    spanCandidates "Edited May 01, 2023 at 3:15 PM".toList =
      [⟨⟨2023, 5, 1, 15, 15, 0⟩, "Edited May 01, 2023 at 3:15 PM"⟩] ∧
    "Edited May 01, 2023 at 3:15 PM" ≠ "May 1, 2023 at 3:15 PM" :=
  ⟨by decide, by decide⟩

/-- C7 amended: for timed matches, the displayed text depends on the path —
the log-span path surfaces the raw span text verbatim, while the page-source
fallback path reconstructs
`<Month> <Day>, <Year> at <Hour>:<Minute>[:<Second>] <AM/PM>` from the parsed
day and year and the raw time groups. -/
theorem timed_display_paths :
    (∀ (txt : Chars) (g : TimedG) (c : Cand), searchTimed txt = some g →
        c ∈ spanCandidates txt → c.display = String.mk txt) ∧
    (∀ (g : TimedG) (c : Cand), candFromTimedPS g = some c →
        c.display = g.month ++ " " ++ toString (natOfDigits g.day) ++ ", " ++
          toString (natOfDigits g.year) ++ " at " ++ String.mk g.hour ++ ":" ++
          String.mk g.minute ++
          (match g.second with
           | some sec => ":" ++ String.mk sec
           | none => "") ++ " " ++ String.mk g.ampm) := by
  constructor
  · intro txt g c h hc
    unfold spanCandidates at hc
    rw [h] at hc
    have hc2 : c ∈ (candFromTimedSpan txt g).toList := by
      cases h2 : searchSimple txt <;> cases h3 : searchAlt txt <;>
        simp [h2, h3] at hc <;> simpa using hc
    unfold candFromTimedSpan at hc2
    cases hm : mkDatetime (natOfDigits g.year) (month_map g.month) (natOfDigits g.day)
        (timedHour g) (natOfDigits g.minute) (timedSecond g) with
    | none => rw [hm] at hc2; simp at hc2
    | some dt =>
      rw [hm] at hc2
      simp at hc2
      rw [hc2]
  · intro g c h
    unfold candFromTimedPS at h
    cases hm : mkDatetime (natOfDigits g.year) (month_map g.month) (natOfDigits g.day)
        (timedHour g) (natOfDigits g.minute) (timedSecond g) with
    | none => rw [hm] at h; simp at h
    | some dt =>
      rw [hm] at h
      simp at h
      rw [← h]

/-- Witness for the amended C7. -/
theorem timed_display_paths_inst :
    (⟨⟨2023, 5, 1, 15, 15, 0⟩, "Edited May 01, 2023 at 3:15 PM"⟩ : Cand).display =
      String.mk "Edited May 01, 2023 at 3:15 PM".toList :=
  timed_display_paths.1 "Edited May 01, 2023 at 3:15 PM".toList
    ⟨"May", ['0', '1'], ['2', '0', '2', '3'], ['3'], ['1', '5'], none, ['P', 'M']⟩
    _ (by decide) (by decide)

/-- C4 counterexample: `driver.get(log_url)` at line 74 is outside every
`try` block, so a navigation failure to the log page propagates out of
`extract_post_date` instead of yielding a display string. -/
theorem post_date_raises_on_log_nav_failure :
    extract_post_date failLogDriver "https://www.quora.com/Some-question/answer/Some-Person" =
      .error "net::ERR_CONNECTION_RESET" := by rfl

/-- C4 amended: the resolver returns a display string provided the five
driver calls that sit outside every `try` block succeed (the two
`current_url` reads, the navigation to the log page, the page-source read and
the final navigation back); under those hypotheses it never raises, and when
both scanning phases produce nothing it returns the sentinel
`Approx. <today>`. -/
theorem post_date_total_when_unguarded_ops_ok (d : Driver) (url : String)
    (h1 : ∃ u, d.dateCurrentUrl = .ok u)
    (h2 : d.getLog = .ok ())
    (h3 : ∃ ps, d.logPageSource = .ok ps)
    (h4 : ∃ u2, d.logCurrentUrl = .ok u2)
    (h5 : d.navBack4 = .ok ()) :
    (∃ s, extract_post_date d url = .ok s) ∧
    (∀ ps, d.logPageSource = .ok ps → dateBranch1 d ps = none → dateBranch2 d ps = none →
      extract_post_date d url = .ok ("Approx. " ++ d.nowDate)) := by
  obtain ⟨u, hu⟩ := h1
  obtain ⟨ps, hps⟩ := h3
  obtain ⟨u2, hu2⟩ := h4
  constructor
  · unfold extract_post_date
    rw [hu, h2, hps, hu2]
    dsimp only
    cases hb1 : dateBranch1 d ps with
    | some r => exact ⟨r, rfl⟩
    | none =>
      dsimp only
      cases hb2 : dateBranch2 d ps with
      | some r => exact ⟨r, rfl⟩
      | none => rw [h5]; exact ⟨_, rfl⟩
  · intro ps2 hps2 hb1 hb2
    rw [hps] at hps2
    have hpe : ps = ps2 := Except.ok.inj hps2
    rw [← hpe] at hb1 hb2
    unfold extract_post_date
    rw [hu, h2, hps, hu2]
    dsimp only
    rw [hb1, hb2, h5]

/-- Witness for the amended C4 on a blank session: all unguarded calls
succeed, nothing is found, and the resolver returns the sentinel. -/
theorem post_date_total_when_unguarded_ops_ok_inst :
    (∃ s, extract_post_date blankDriver
        "https://www.quora.com/Some-question/answer/Some-Person" = .ok s) ∧
    extract_post_date blankDriver "https://www.quora.com/Some-question/answer/Some-Person" =
      .ok ("Approx. " ++ blankDriver.nowDate) :=
  ⟨(post_date_total_when_unguarded_ops_ok blankDriver
      "https://www.quora.com/Some-question/answer/Some-Person"
      ⟨_, rfl⟩ rfl ⟨_, rfl⟩ ⟨_, rfl⟩ rfl).1,
   (post_date_total_when_unguarded_ops_ok blankDriver
      "https://www.quora.com/Some-question/answer/Some-Person"
      ⟨_, rfl⟩ rfl ⟨_, rfl⟩ ⟨_, rfl⟩ rfl).2 "" rfl rfl rfl⟩

/-- C6: every record whose `is_deleted` field is true carries all-zero stats
and the deletion sentinel author, and its `post_date` is the value actually
returned by the date resolver, not a forced default. -/
theorem deleted_record_invariant (d : Driver) (url : String)
    (h : (scrape_quora_answer d url).is_deleted = some true) :
    (scrape_quora_answer d url).stats = ⟨"0", "0", "0", "0"⟩ ∧
    (scrape_quora_answer d url).author = "POST DELETED" ∧
    ∃ pd, extract_post_date d url = .ok pd ∧ (scrape_quora_answer d url).post_date = pd := by
  unfold scrape_quora_answer at h ⊢
  cases hsb : scrapeBody d url with
  | error e => rw [hsb] at h; simp at h
  | ok r =>
    rw [hsb] at h
    dsimp only at h ⊢
    unfold scrapeBody at hsb
    cases hna : d.navAnswer with
    | error e => rw [hna] at hsb; simp at hsb
    | ok unit1 =>
      rw [hna] at hsb; dsimp only at hsb
      cases hwb : d.waitBody with
      | error e => rw [hwb] at hsb; simp at hsb
      | ok unit2 =>
        rw [hwb] at hsb; dsimp only at hsb
        cases hcu : d.scrapeCurrentUrl with
        | error e => rw [hcu] at hsb; simp at hsb
        | ok u3 =>
          rw [hcu] at hsb; dsimp only at hsb
          cases hti : d.title with
          | error e => rw [hti] at hsb; simp at hsb
          | ok t4 =>
            rw [hti] at hsb; dsimp only at hsb
            split at hsb
            · cases hpd : extract_post_date d url with
              | error e => rw [hpd] at hsb; simp at hsb
              | ok pd =>
                rw [hpd] at hsb
                dsimp only at hsb
                have hr := Except.ok.inj hsb
                rw [← hr]
                exact ⟨rfl, rfl, pd, rfl, rfl⟩
            · cases hpd : extract_post_date d url with
              | error e => rw [hpd] at hsb; simp at hsb
              | ok pd =>
                rw [hpd] at hsb
                dsimp only at hsb
                have hr := Except.ok.inj hsb
                rw [← hr] at h
                simp at h

/-- Witness for C6 on a session showing a deletion notice whose log page
still yields the date `May 1, 2023`. -/
theorem deleted_record_invariant_inst :
    (scrape_quora_answer deletedDriver "https://www.quora.com/Q/answer/A").stats =
      ⟨"0", "0", "0", "0"⟩ ∧
    (scrape_quora_answer deletedDriver "https://www.quora.com/Q/answer/A").author =
      "POST DELETED" ∧
    ∃ pd, extract_post_date deletedDriver "https://www.quora.com/Q/answer/A" = .ok pd ∧
      (scrape_quora_answer deletedDriver "https://www.quora.com/Q/answer/A").post_date = pd :=
  deleted_record_invariant deletedDriver "https://www.quora.com/Q/answer/A" (by rfl)

/-- C9 counterexample: when navigation raises, the outer handler builds the
error record without any `is_deleted` key (modelled as `none`), and its
`error` field is `str(e)`, which can be the empty string — so the record
neither carries the `isDeleted` boolean nor guarantees a non-empty error
string. -/
theorem error_record_missing_is_deleted :
    (scrape_quora_answer navFailDriver "https://x.com/a/answer/B").error = some "" ∧
    (scrape_quora_answer navFailDriver "https://x.com/a/answer/B").is_deleted = none :=
  ⟨rfl, rfl⟩

/-- C9 amended: every URL yields exactly one record; when an uncaught
condition escapes the body, the record is exactly the sentinel error record —
author and postDate `"Error"`, all stats `"0"`, `scraped_at` set, `error`
holding `str(e)` (possibly empty) — and the `is_deleted` key is absent. -/
theorem error_record_shape (d : Driver) (url : String) (e : String)
    (h : scrapeBody d url = .error e) :
    scrape_quora_answer d url =
      ⟨url, extract_base_url url, "Error", "Error", ⟨"0", "0", "0", "0"⟩,
       d.nowIso, none, some e⟩ := by
  unfold scrape_quora_answer
  rw [h]

/-- Witness for the amended C9. -/
theorem error_record_shape_inst :
    scrape_quora_answer navFailDriver "https://x.com/a/answer/B" =
      ⟨"https://x.com/a/answer/B", extract_base_url "https://x.com/a/answer/B",
       "Error", "Error", ⟨"0", "0", "0", "0"⟩, navFailDriver.nowIso, none, some ""⟩ :=
  error_record_shape navFailDriver "https://x.com/a/answer/B" "" (by rfl)

/-- C10: when no selector strategy yields a validated name and the current
URL contains `/answer/`, the extractor returns the URL segment after
`/answer/` up to the next `/` with dashes replaced by spaces, with no
plausibility validation applied to that value. -/
theorem author_url_fallback_bypasses_validator (d : Driver) (u : String)
    (h1 : authorFromSelectors d authorSelectors = none)
    (h2 : d.authorCurrentUrl = .ok u)
    (h3 : strContains u "/answer/" = true) :
    extract_author_name d = urlAuthorFallback u := by
  unfold extract_author_name
  rw [h1, h2]
  simp [h3]

/-- Witness for C10: the fallback returns `answer man`, a value the selector
validator would reject for containing the substring `answer`. -/
theorem author_url_fallback_bypasses_validator_inst :
    extract_author_name urlAuthorDriver =
      urlAuthorFallback "https://www.quora.com/T/answer/answer-man/extra" ∧
    urlAuthorFallback "https://www.quora.com/T/answer/answer-man/extra" = "answer man" ∧
    strContains (pyLowerS "answer man") "answer" = true :=
  ⟨author_url_fallback_bypasses_validator urlAuthorDriver
      "https://www.quora.com/T/answer/answer-man/extra" (by rfl) rfl (by rfl),
   by decide, by rfl⟩

/-- C3 counterexample: when the `current_url` query raises after all selector
strategies have failed, the author extractor returns the outer handler text
`Error extracting name`, not the documented default `Name not found`. -/
theorem author_error_default_mismatch :
    extract_author_name authorErrDriver = "Error extracting name" ∧
    "Error extracting name" ≠ "Name not found" :=
  ⟨rfl, by decide⟩

theorem countFromTexts_nil (cw w : String) (ci : Bool) : countFromTexts cw w ci [] = none := rfl

theorem countFromSelectors_blank (d : Driver) (hf : ∀ sel, d.find sel = .ok [])
    (cw w : String) (ci : Bool) (sels : List String) :
    countFromSelectors d cw w ci sels = none := by
  induction sels with
  | nil => rfl
  | cons sel rest ih => simp [countFromSelectors, hf, countFromTexts_nil, ih]

theorem authorFromSelectors_blank (d : Driver) (hf : ∀ sel, d.find sel = .ok [])
    (sels : List String) : authorFromSelectors d sels = none := by
  induction sels with
  | nil => rfl
  | cons sel rest ih => simp [authorFromSelectors, hf, firstValidatedAuthor, ih]

/-- C3 amended: no extractor ever raises (each is a total function into
strings); on a page lacking every target marker the four count extractors
return `"0"` and the author extractor returns `"Name not found"` provided the
current-URL query succeeds with a URL free of `/answer/` — but when that
query raises, the author extractor returns `"Error extracting name"`
instead of the documented default. -/
theorem extractors_default_on_blank_page (d : Driver) (u : String)
    (hf : ∀ sel, d.find sel = .ok [])
    (hv : d.execViewsJs = .ok none)
    (hu1 : d.execUpvoteSpec = .ok none)
    (hu2 : d.execUpvoteGen = .ok none)
    (hc1 : d.execCommentSpec = .ok none)
    (hc2 : d.execCommentJs = .ok none)
    (hs : d.execSharesJs = .ok none)
    (hcu : d.authorCurrentUrl = .ok u)
    (hans : strContains u "/answer/" = false) :
    extract_author_name d = "Name not found" ∧
    extract_view_count d = "0" ∧
    extract_upvote_count d = "0" ∧
    extract_comment_count d = "0" ∧
    extract_share_count d = "0" ∧
    (∀ d2 : Driver, authorFromSelectors d2 authorSelectors = none →
      d2.authorCurrentUrl = .error "boom" → extract_author_name d2 = "Error extracting name") := by
  refine ⟨?_, ?_, ?_, ?_, ?_, ?_⟩
  · unfold extract_author_name
    rw [authorFromSelectors_blank d hf, hcu]
    simp [hans]
  · unfold extract_view_count
    rw [hf viewXpath, countFromSelectors_blank d hf, hv]
  · unfold extract_upvote_count
    rw [hf upvoteXpath, hu1, hu2, hf upvoteButtonsXpath, countFromSelectors_blank d hf]
    rfl
  · unfold extract_comment_count
    rw [hf commentXpath, hc1, hf commentSpansXpath, hf commentButtonsXpath, hc2,
        countFromSelectors_blank d hf]
    rfl
  · unfold extract_share_count
    rw [countFromSelectors_blank d hf, hf shareButtonsXpath, hs]
    rfl
  · intro d2 ha hb
    unfold extract_author_name
    rw [ha, hb]

/-- Witness for the amended C3 on the blank session. -/
theorem extractors_default_on_blank_page_inst :
    extract_author_name blankDriver = "Name not found" ∧
    extract_view_count blankDriver = "0" ∧
    extract_upvote_count blankDriver = "0" ∧
    extract_comment_count blankDriver = "0" ∧
    extract_share_count blankDriver = "0" ∧
    (∀ d2 : Driver, authorFromSelectors d2 authorSelectors = none →
      d2.authorCurrentUrl = .error "boom" → extract_author_name d2 = "Error extracting name") :=
  extractors_default_on_blank_page blankDriver "https://www.quora.com/profile/Some-Person"
    (fun _ => rfl) rfl rfl rfl rfl rfl rfl rfl (by rfl)

theorem takeWhile_append_all {p : Char → Bool} (l r : Chars) (h : l.all p = true)
    (h2 : headND p r = true) :
    (l ++ r).takeWhile p = l ∧ (l ++ r).dropWhile p = r := by
  induction l with
  | nil =>
    simp only [List.nil_append]
    cases r with
    | nil => exact ⟨rfl, rfl⟩
    | cons c cs =>
      have hc : p c = false := by
        simp only [headND, Bool.not_eq_true'] at h2
        exact h2
      exact ⟨by simp [List.takeWhile_cons, hc], by simp [List.dropWhile_cons, hc]⟩
  | cons a l ih =>
    simp only [List.all_cons, Bool.and_eq_true] at h
    obtain ⟨hpa, hall⟩ := h
    have hih := ih hall
    refine ⟨?_, ?_⟩
    · simp [List.takeWhile_cons, hpa, hih.1]
    · simp [List.dropWhile_cons, hpa, hih.2]

theorem spanDigits_eq {r d r2 : Chars} (h : spanDigits r = some (d, r2)) :
    d = r.takeWhile isDig ∧ r2 = r.dropWhile isDig ∧ d.all isDig = true ∧ d.isEmpty = false := by
  unfold spanDigits at h
  by_cases hni : (r.takeWhile isDig).isEmpty
  · simp [hni] at h
  · simp [hni] at h
    obtain ⟨hd, hr⟩ := h
    refine ⟨hd.symm, hr.symm, ?_, ?_⟩
    · rw [← hd]; exact List.all_takeWhile ..
    · rw [← hd]
      cases h2 : (r.takeWhile isDig).isEmpty
      · rfl
      · exact absurd h2 hni

theorem isSuffixChar_not_dig {c : Char} (h : isSuffixChar c = true) : isDig c = false := by
  simp only [isSuffixChar, Bool.or_eq_true, decide_eq_true_eq] at h
  rcases h with ((h1 | h1) | h1) | h1 <;> rw [h1] <;> decide

theorem suffPart_shape (s : Chars) :
    (suffPart s).1 = [] ∨ ∃ c, (suffPart s).1 = [c] ∧ isSuffixChar c = true := by
  cases s with
  | nil => exact Or.inl rfl
  | cons c r =>
    cases h : isSuffixChar c
    · exact Or.inl (by simp [suffPart, h])
    · exact Or.inr ⟨c, by simp [suffPart, h], h⟩

theorem suffix_tail_ok {t : Chars}
    (h : t = [] ∨ ∃ c, t = [c] ∧ isSuffixChar c = true) :
    afterIntPart t = true ∧ headND isDig t = true := by
  rcases h with rfl | ⟨c, rfl, hc⟩
  · exact ⟨by simp [afterIntPart], rfl⟩
  · refine ⟨?_, by simp [headND, isSuffixChar_not_dig hc]⟩
    have h1 : c ≠ ',' := by
      intro hcc; rw [hcc] at hc; exact absurd hc (by decide)
    have h2 : c ≠ '.' := by
      intro hcc; rw [hcc] at hc; exact absurd hc (by decide)
    unfold afterIntPart
    rw [if_neg h1, if_neg h2, hc]
    rfl

theorem dotPart_ok (s t0 : Chars)
    (hsh : t0 = [] ∨ ∃ c, t0 = [c] ∧ isSuffixChar c = true) :
    afterIntPart ((dotPart s).1 ++ t0) = true ∧ headND isDig ((dotPart s).1 ++ t0) = true := by
  have hts := suffix_tail_ok hsh
  cases s with
  | nil => simpa [dotPart] using hts
  | cons c r =>
    by_cases hc : c = '.'
    · subst hc
      cases hsd : spanDigits r with
      | none => simpa [dotPart, hsd] using hts
      | some dr =>
        obtain ⟨d, r2⟩ := dr
        obtain ⟨hd, hr2, hall, hne⟩ := spanDigits_eq hsd
        have htw := takeWhile_append_all d t0 hall hts.2
        have hshape : (dotPart ('.' :: r)).1 = '.' :: d := by simp [dotPart, hsd]
        rw [hshape]
        constructor
        · show afterIntPart ('.' :: (d ++ t0)) = true
          unfold afterIntPart
          rw [if_neg (by decide), if_pos rfl, htw.1, htw.2, hne]
          rcases hsh with rfl | ⟨c2, rfl, hc2⟩
          · rfl
          · simp [hc2]
        · show headND isDig ('.' :: (d ++ t0)) = true
          simp only [headND, Bool.not_eq_true']
          decide
    · simpa [dotPart, hc] using hts

theorem commaPart_ok (fuel : Nat) : ∀ s t0, headND isDig t0 = true → afterIntPart t0 = true →
    afterIntPart ((commaPartAux fuel s).1 ++ t0) = true ∧
    headND isDig ((commaPartAux fuel s).1 ++ t0) = true := by
  induction fuel with
  | zero =>
    intro s t0 h1 h2
    exact ⟨by simpa [commaPartAux], by simpa [commaPartAux]⟩
  | succ fuel ih =>
    intro s t0 h1 h2
    cases s with
    | nil => exact ⟨by simpa [commaPartAux], by simpa [commaPartAux]⟩
    | cons c r =>
      by_cases hc : c = ','
      · subst hc
        cases hsd : spanDigits r with
        | none => exact ⟨by simpa [commaPartAux, hsd], by simpa [commaPartAux, hsd]⟩
        | some dr =>
          obtain ⟨d, r2⟩ := dr
          obtain ⟨hd, hr2, hall, hne⟩ := spanDigits_eq hsd
          have hihr := ih r2 t0 h1 h2
          have htw := takeWhile_append_all d ((commaPartAux fuel r2).1 ++ t0) hall hihr.2
          have hshape : (commaPartAux (fuel + 1) (',' :: r)).1 =
              ',' :: (d ++ (commaPartAux fuel r2).1) := by
            simp [commaPartAux, hsd]
          rw [hshape]
          constructor
          · show afterIntPart (',' :: (d ++ (commaPartAux fuel r2).1 ++ t0)) = true
            unfold afterIntPart
            rw [if_pos rfl, List.append_assoc, htw.1, htw.2, hne]
            simpa using hihr.1
          · show headND isDig (',' :: _) = true
            simp only [headND, Bool.not_eq_true']
            decide
      · exact ⟨by simpa [commaPartAux, hc], by simpa [commaPartAux, hc]⟩

theorem matchNumTokenAt_pattern {s g r : Chars} (h : matchNumTokenAt s = some (g, r)) :
    numericPatternOk g = true := by
  unfold matchNumTokenAt at h
  cases hsd : spanDigits s with
  | none => rw [hsd] at h; simp at h
  | some dr =>
    obtain ⟨d0, r0⟩ := dr
    rw [hsd] at h
    dsimp only at h
    obtain ⟨hd, hr0, hall, hne⟩ := spanDigits_eq hsd
    have hdp := dotPart_ok (commaPartAux r0.length r0).2 (suffPart (dotPart (commaPartAux r0.length r0).2).2).1
      (suffPart_shape _)
    have hcp := commaPart_ok r0.length r0
      ((dotPart (commaPartAux r0.length r0).2).1 ++
        (suffPart (dotPart (commaPartAux r0.length r0).2).2).1)
      hdp.2 hdp.1
    have hg : g = d0 ++ ((commaPartAux r0.length r0).1 ++
        ((dotPart (commaPartAux r0.length r0).2).1 ++
          (suffPart (dotPart (commaPartAux r0.length r0).2).2).1)) := by
      have := congrArg Prod.fst (Option.some.inj h)
      simp only at this
      rw [← this]
      simp [List.append_assoc]
    rw [hg]
    unfold numericPatternOk
    have htw := takeWhile_append_all d0 _ hall hcp.2
    rw [htw.1, htw.2, hne]
    simpa using hcp.1

theorem searchCountWord_pattern {ci : Bool} {w : String} {s g : Chars}
    (h : searchCountWord ci w s = some g) : numericPatternOk g = true := by
  induction s with
  | nil => simp [searchCountWord] at h
  | cons c cs ih =>
    unfold searchCountWord at h
    cases hm : matchNumTokenAt (c :: cs) with
    | none => rw [hm] at h; exact ih h
    | some gr =>
      obtain ⟨g1, r1⟩ := gr
      rw [hm] at h
      dsimp only at h
      cases hw : wsPlus r1 with
      | none => rw [hw] at h; exact ih h
      | some r2 =>
        rw [hw] at h
        dsimp only at h
        cases hl : dropLitCi ci w.toList r2 with
        | none => rw [hl] at h; exact ih h
        | some r3 =>
          rw [hl] at h
          dsimp only at h
          rw [← Option.some.inj h]
          exact matchNumTokenAt_pattern hm

theorem digits_numericPatternOk {v : Chars} (h : pyIsDigitC v = true) :
    numericPatternOk v = true := by
  simp only [pyIsDigitC, Bool.and_eq_true, Bool.not_eq_true'] at h
  obtain ⟨hne, hall⟩ := h
  have htw := takeWhile_append_all v [] hall (by rfl)
  unfold numericPatternOk
  rw [show v ++ ([] : Chars) = v from List.append_nil v] at htw
  rw [htw.1, htw.2, hne]
  simp [afterIntPart]

/-- C8 counterexample: the button-text strategy of the comment extractor accepts a
raw digit-only value of 11 characters — the under-10-characters guard exists
only in the upvote extractor, not here. -/
theorem comment_count_accepts_long_digits :
    extract_comment_count bigCommentDriver = "12345678901" ∧
    ("12345678901" : String).length ≥ 10 ∧
    pyIsDigitS "12345678901" = true := by
  refine ⟨by rfl, by decide, by decide⟩

/-- C8 amended: every value a count extractor accepts before normalisation
matches the plausibility pattern `^\d+(?:,\d+)*(?:\.\d+)?[KkMm]?$` — the
regex-based strategies capture exactly that pattern as group 1, and the
digit-only strategies accept only nonempty digit strings, a subset of the
pattern.  The under-10-characters guard on raw digit values, however, is
applied only inside the upvote extractor; the comment and share extractors
accept digit strings of any length. -/
theorem accepted_values_match_numeric_pattern :
    (∀ (ci : Bool) (w : String) (s g : Chars),
        searchCountWord ci w s = some g → numericPatternOk g = true) ∧
    (∀ v : Chars, pyIsDigitC v = true → numericPatternOk v = true) :=
  ⟨fun _ _ _ _ h => searchCountWord_pattern h, fun _ h => digits_numericPatternOk h⟩

/-- Witness for the amended C8: the group captured from `1,234.5K views` and
a plain digit string both satisfy the validator pattern. -/
theorem accepted_values_match_numeric_pattern_inst :
    numericPatternOk "1,234.5K".toList = true ∧ numericPatternOk "123".toList = true :=
  ⟨accepted_values_match_numeric_pattern.1 false "view" "1,234.5K views".toList
      "1,234.5K".toList (by decide),
   accepted_values_match_numeric_pattern.2 "123".toList (by decide)⟩

theorem pyCharLower_digit {c : Char} (h : isDig c = true) : pyCharLower c = c := by
  unfold pyCharLower
  split <;> first | rfl | (exact absurd h (by decide))

theorem pyLowerC_digits {l : Chars} (h : l.all isDig = true) : pyLowerC l = l := by
  induction l with
  | nil => rfl
  | cons c cs ih =>
    simp only [List.all_cons, Bool.and_eq_true] at h
    simp [pyLowerC, pyCharLower_digit h.1]
    simpa [pyLowerC] using ih h.2

theorem digit_ne {c x : Char} (h : isDig c = true) (hx : isDig x = false) : c ≠ x := by
  intro he
  rw [he, hx] at h
  exact absurd h (by decide)

theorem filter_ne_digits {l : Chars} (x : Char) (h : l.all isDig = true)
    (hx : isDig x = false) : l.filter (fun c => c ≠ x) = l := by
  refine List.filter_eq_self.mpr ?_
  intro a ha
  simp only [List.all_eq_true] at h
  simpa using digit_ne (h a ha) hx

theorem contains_concat (l : Chars) (x : Char) : (l ++ [x]).contains x = true := by
  induction l with
  | nil => simp [List.contains_cons]
  | cons c cs ih => simp [List.contains_cons, ih]

theorem not_contains_of_all {l : Chars} {x : Char} (h : ∀ c ∈ l, c ≠ x) :
    l.contains x = false := by
  induction l with
  | nil => rfl
  | cons c cs ih =>
    simp only [List.contains_cons, Bool.or_eq_false_iff]
    refine ⟨?_, ih (fun c2 hc2 => h c2 (List.mem_cons_of_mem c hc2))⟩
    have hcx := h c (List.mem_cons_self c cs)
    simp only [beq_eq_false_iff_ne, ne_eq]
    exact fun he => hcx he.symm

theorem pyFloat_digits {l : Chars} (hall : l.all isDig = true) (hne : l.isEmpty = false) :
    pyFloat l = some ((natOfDigits l : Rat)) := by
  have htw := takeWhile_append_all l [] hall rfl
  rw [List.append_nil] at htw
  unfold pyFloat
  rw [htw.1, htw.2]
  dsimp only
  rw [hne]
  rfl

theorem pyFloat_frac {d1 d2 : Chars} (h1 : d1.all isDig = true) (hne : d1.isEmpty = false)
    (h2 : d2.all isDig = true) :
    pyFloat (d1 ++ '.' :: d2) = some ((natOfDigits d1 : Rat) +
      (natOfDigits d2 : Rat) / ((10 : Rat) ^ d2.length)) := by
  have htw := takeWhile_append_all d1 ('.' :: d2) h1 (by simp [headND]; decide)
  unfold pyFloat
  rw [htw.1, htw.2]
  dsimp only
  have hcond : d2.all isDig = true ∧ (d1 ≠ [] ∨ d2 ≠ []) := by
    refine ⟨h2, Or.inl ?_⟩
    intro hd
    rw [hd] at hne
    exact absurd hne (by decide)
  rw [if_pos rfl, if_pos hcond]

theorem isKForm_shape {s : Chars} (h : isKForm s = true) :
    ∃ d1 kc, d1.all isDig = true ∧ d1.isEmpty = false ∧ (kc = 'k' ∨ kc = 'K') ∧
      (s = d1 ++ [kc] ∨
       ∃ d2, d2.all isDig = true ∧ d2.isEmpty = false ∧ s = d1 ++ '.' :: (d2 ++ [kc])) := by
  unfold isKForm at h
  rw [Bool.and_eq_true] at h
  obtain ⟨hne, hm⟩ := h
  have hsp := List.takeWhile_append_dropWhile (p := isDig) (l := s)
  have hall := List.all_takeWhile (p := isDig) (l := s)
  rw [Bool.not_eq_true'] at hne
  split at hm
  · rename_i heq
    exact ⟨s.takeWhile isDig, 'k', hall, hne, Or.inl rfl,
      Or.inl (by rw [← heq]; exact hsp.symm)⟩
  · rename_i heq
    exact ⟨s.takeWhile isDig, 'K', hall, hne, Or.inr rfl,
      Or.inl (by rw [← heq]; exact hsp.symm)⟩
  · rename_i r2 heq
    rw [Bool.and_eq_true] at hm
    obtain ⟨hne2, hm2⟩ := hm
    rw [Bool.not_eq_true'] at hne2
    have hall2 := List.all_takeWhile (p := isDig) (l := r2)
    have hsp2 := List.takeWhile_append_dropWhile (p := isDig) (l := r2)
    rw [Bool.or_eq_true, decide_eq_true_eq, decide_eq_true_eq] at hm2
    rcases hm2 with h3 | h3
    · refine ⟨s.takeWhile isDig, 'k', hall, hne, Or.inl rfl,
        Or.inr ⟨r2.takeWhile isDig, hall2, hne2, ?_⟩⟩
      rw [← h3, hsp2, ← heq]
      exact hsp.symm
    · refine ⟨s.takeWhile isDig, 'K', hall, hne, Or.inr rfl,
        Or.inr ⟨r2.takeWhile isDig, hall2, hne2, ?_⟩⟩
      rw [← h3, hsp2, ← heq]
      exact hsp.symm
  · exact absurd hm (by simp)

theorem isMForm_shape {s : Chars} (h : isMForm s = true) :
    ∃ d1 mc, d1.all isDig = true ∧ d1.isEmpty = false ∧ (mc = 'm' ∨ mc = 'M') ∧
      (s = d1 ++ [mc] ∨
       ∃ d2, d2.all isDig = true ∧ d2.isEmpty = false ∧ s = d1 ++ '.' :: (d2 ++ [mc])) := by
  unfold isMForm at h
  rw [Bool.and_eq_true] at h
  obtain ⟨hne, hm⟩ := h
  have hsp := List.takeWhile_append_dropWhile (p := isDig) (l := s)
  have hall := List.all_takeWhile (p := isDig) (l := s)
  rw [Bool.not_eq_true'] at hne
  split at hm
  · rename_i heq
    exact ⟨s.takeWhile isDig, 'm', hall, hne, Or.inl rfl,
      Or.inl (by rw [← heq]; exact hsp.symm)⟩
  · rename_i heq
    exact ⟨s.takeWhile isDig, 'M', hall, hne, Or.inr rfl,
      Or.inl (by rw [← heq]; exact hsp.symm)⟩
  · rename_i r2 heq
    rw [Bool.and_eq_true] at hm
    obtain ⟨hne2, hm2⟩ := hm
    rw [Bool.not_eq_true'] at hne2
    have hall2 := List.all_takeWhile (p := isDig) (l := r2)
    have hsp2 := List.takeWhile_append_dropWhile (p := isDig) (l := r2)
    rw [Bool.or_eq_true, decide_eq_true_eq, decide_eq_true_eq] at hm2
    rcases hm2 with h3 | h3
    · refine ⟨s.takeWhile isDig, 'm', hall, hne, Or.inl rfl,
        Or.inr ⟨r2.takeWhile isDig, hall2, hne2, ?_⟩⟩
      rw [← h3, hsp2, ← heq]
      exact hsp.symm
    · refine ⟨s.takeWhile isDig, 'M', hall, hne, Or.inr rfl,
        Or.inr ⟨r2.takeWhile isDig, hall2, hne2, ?_⟩⟩
      rw [← h3, hsp2, ← heq]
      exact hsp.symm
  · exact absurd hm (by simp)

theorem pyCharLower_ne_k {c : Char} (h1 : c ≠ 'k') (h2 : c ≠ 'K') : pyCharLower c ≠ 'k' := by
  unfold pyCharLower
  split <;> first | decide | (exact absurd rfl h2) | exact h1

theorem pyCharLower_ne_m {c : Char} (h1 : c ≠ 'm') (h2 : c ≠ 'M') : pyCharLower c ≠ 'm' := by
  unfold pyCharLower
  split <;> first | decide | (exact absurd rfl h2) | exact h1

theorem lower_concat_digits {d1 : Chars} {kc lc : Char} (hall : d1.all isDig = true)
    (hlc : pyCharLower kc = lc) : pyLowerC (d1 ++ [kc]) = d1 ++ [lc] := by
  unfold pyLowerC
  rw [List.map_append]
  congr 1
  · simpa [pyLowerC] using pyLowerC_digits hall
  · simp [hlc]

theorem lower_frac_digits {d1 d2 : Chars} {kc lc : Char} (h1 : d1.all isDig = true)
    (h2 : d2.all isDig = true) (hlc : pyCharLower kc = lc) :
    pyLowerC (d1 ++ '.' :: (d2 ++ [kc])) = d1 ++ '.' :: (d2 ++ [lc]) := by
  unfold pyLowerC
  rw [List.map_append, List.map_cons, List.map_append]
  have e1 : List.map pyCharLower d1 = d1 := by simpa [pyLowerC] using pyLowerC_digits h1
  have e2 : List.map pyCharLower d2 = d2 := by simpa [pyLowerC] using pyLowerC_digits h2
  rw [e1, e2]
  simp [hlc]
  decide

/-- C5: for count strings matching `^\d+(\.\d+)?[Kk]$` the normalisation
returns `str(int(float(s[:-1]) * 1000))` (the float modelled as the exact
decimal value, identically on both sides of the equation); for the `[Mm]`
suffix it multiplies by 1,000,000 likewise and truncates; for a suffix-free
count string it strips commas and returns the rest unchanged. -/
theorem normalize_count_spec :
    (∀ s : Chars, isKForm s = true → ∃ q, pyFloat s.dropLast = some q ∧
        normalize_count s = some (toString (Rat.floor (q * 1000)))) ∧
    (∀ s : Chars, isMForm s = true → ∃ q, pyFloat s.dropLast = some q ∧
        normalize_count s = some (toString (Rat.floor (q * 1000000)))) ∧
    (∀ s : Chars, isPlainForm s = true →
        normalize_count s = some (String.mk (s.filter (fun c => c ≠ ',')))) := by
  refine ⟨?_, ?_, ?_⟩
  · intro s h
    obtain ⟨d1, kc, hall, hne, hkc, hsh⟩ := isKForm_shape h
    have hlck : pyCharLower kc = 'k' := by rcases hkc with rfl | rfl <;> decide
    rcases hsh with rfl | ⟨d2, hall2, hne2, rfl⟩
    · have hlv := lower_concat_digits hall hlck
      have hdl : (d1 ++ [kc]).dropLast = d1 := List.dropLast_concat ..
      have hfil : (d1 ++ ['k']).filter (fun c => c ≠ 'k') = d1 := by
        rw [List.filter_append, filter_ne_digits 'k' hall (by decide)]
        simp
      refine ⟨(natOfDigits d1 : Rat), ?_, ?_⟩
      · rw [hdl]; exact pyFloat_digits hall hne
      · unfold normalize_count
        dsimp only
        rw [hlv, contains_concat, if_pos rfl, hfil, pyFloat_digits hall hne]
        rfl
    · have hlv := lower_frac_digits hall hall2 hlck
      have hdl : (d1 ++ '.' :: (d2 ++ [kc])).dropLast = d1 ++ '.' :: d2 := by
        rw [show d1 ++ '.' :: (d2 ++ [kc]) = (d1 ++ '.' :: d2) ++ [kc] by simp,
            List.dropLast_concat]
      have hcontains : (d1 ++ '.' :: (d2 ++ ['k'])).contains 'k' = true := by
        rw [show d1 ++ '.' :: (d2 ++ ['k']) = (d1 ++ '.' :: d2) ++ ['k'] by simp]
        exact contains_concat ..
      have hfil : (d1 ++ '.' :: (d2 ++ ['k'])).filter (fun c => c ≠ 'k') = d1 ++ '.' :: d2 := by
        rw [List.filter_append, filter_ne_digits 'k' hall (by decide), List.filter_cons,
            List.filter_append, filter_ne_digits 'k' hall2 (by decide)]
        simp
      refine ⟨(natOfDigits d1 : Rat) + (natOfDigits d2 : Rat) / ((10 : Rat) ^ d2.length),
        ?_, ?_⟩
      · rw [hdl]; exact pyFloat_frac hall hne hall2
      · unfold normalize_count
        dsimp only
        rw [hlv, hcontains, if_pos rfl, hfil, pyFloat_frac hall hne hall2]
        rfl
  · intro s h
    obtain ⟨d1, mc, hall, hne, hmc, hsh⟩ := isMForm_shape h
    have hlcm : pyCharLower mc = 'm' := by rcases hmc with rfl | rfl <;> decide
    rcases hsh with rfl | ⟨d2, hall2, hne2, rfl⟩
    · have hlv := lower_concat_digits hall hlcm
      have hdl : (d1 ++ [mc]).dropLast = d1 := List.dropLast_concat ..
      have hnck : (d1 ++ ['m']).contains 'k' = false := by
        apply not_contains_of_all
        intro c hc
        rcases List.mem_append.mp hc with hc1 | hc1
        · exact digit_ne (List.all_eq_true.mp hall c hc1) (by decide)
        · simp only [List.mem_singleton] at hc1; subst hc1; decide
      have hfil : (d1 ++ ['m']).filter (fun c => c ≠ 'm') = d1 := by
        rw [List.filter_append, filter_ne_digits 'm' hall (by decide)]
        simp
      refine ⟨(natOfDigits d1 : Rat), ?_, ?_⟩
      · rw [hdl]; exact pyFloat_digits hall hne
      · unfold normalize_count
        dsimp only
        rw [hlv, hnck, if_neg (by simp), contains_concat, if_pos rfl, hfil,
            pyFloat_digits hall hne]
        rfl
    · have hlv := lower_frac_digits hall hall2 hlcm
      have hdl : (d1 ++ '.' :: (d2 ++ [mc])).dropLast = d1 ++ '.' :: d2 := by
        rw [show d1 ++ '.' :: (d2 ++ [mc]) = (d1 ++ '.' :: d2) ++ [mc] by simp,
            List.dropLast_concat]
      have hnck : (d1 ++ '.' :: (d2 ++ ['m'])).contains 'k' = false := by
        apply not_contains_of_all
        intro c hc
        rcases List.mem_append.mp hc with hc1 | hc1
        · exact digit_ne (List.all_eq_true.mp hall c hc1) (by decide)
        · rcases List.mem_cons.mp hc1 with hc2 | hc2
          · subst hc2; decide
          · rcases List.mem_append.mp hc2 with hc3 | hc3
            · exact digit_ne (List.all_eq_true.mp hall2 c hc3) (by decide)
            · simp only [List.mem_singleton] at hc3; subst hc3; decide
      have hcontains : (d1 ++ '.' :: (d2 ++ ['m'])).contains 'm' = true := by
        rw [show d1 ++ '.' :: (d2 ++ ['m']) = (d1 ++ '.' :: d2) ++ ['m'] by simp]
        exact contains_concat ..
      have hfil : (d1 ++ '.' :: (d2 ++ ['m'])).filter (fun c => c ≠ 'm') = d1 ++ '.' :: d2 := by
        rw [List.filter_append, filter_ne_digits 'm' hall (by decide), List.filter_cons,
            List.filter_append, filter_ne_digits 'm' hall2 (by decide)]
        simp
      refine ⟨(natOfDigits d1 : Rat) + (natOfDigits d2 : Rat) / ((10 : Rat) ^ d2.length),
        ?_, ?_⟩
      · rw [hdl]; exact pyFloat_frac hall hne hall2
      · unfold normalize_count
        dsimp only
        rw [hlv, hnck, if_neg (by simp), hcontains, if_pos rfl, hfil,
            pyFloat_frac hall hne hall2]
        rfl
  · intro s h
    unfold isPlainForm at h
    rw [Bool.and_eq_true] at h
    obtain ⟨_, hsuf⟩ := h
    have hchar : ∀ c ∈ s, c ≠ 'k' ∧ c ≠ 'K' ∧ c ≠ 'm' ∧ c ≠ 'M' := by
      intro c hc
      have := List.all_eq_true.mp hsuf c hc
      simp only [Bool.not_eq_true', isSuffixChar, Bool.or_eq_false_iff,
        decide_eq_false_iff_not] at this
      exact ⟨this.1.1.2, this.1.1.1, this.2, this.1.2⟩
    have hnck : (pyLowerC s).contains 'k' = false := by
      apply not_contains_of_all
      intro c hc
      obtain ⟨c0, hc0, rfl⟩ := List.mem_map.mp hc
      obtain ⟨h1, h2, _, _⟩ := hchar c0 hc0
      exact pyCharLower_ne_k h1 h2
    have hncm : (pyLowerC s).contains 'm' = false := by
      apply not_contains_of_all
      intro c hc
      obtain ⟨c0, hc0, rfl⟩ := List.mem_map.mp hc
      obtain ⟨_, _, h3, h4⟩ := hchar c0 hc0
      exact pyCharLower_ne_m h3 h4
    unfold normalize_count
    dsimp only
    rw [hnck, if_neg (by simp), hncm, if_neg (by simp)]

/-- Witness for C5 on the spec examples `1.2K`, `3M`, `1,234`. -/
theorem normalize_count_spec_inst :
    (∃ q, pyFloat "1.2K".toList.dropLast = some q ∧
      normalize_count "1.2K".toList = some (toString (Rat.floor (q * 1000)))) ∧
    (∃ q, pyFloat "3M".toList.dropLast = some q ∧
      normalize_count "3M".toList = some (toString (Rat.floor (q * 1000000)))) ∧
    normalize_count "1,234".toList = some "1234" := by
  refine ⟨normalize_count_spec.1 "1.2K".toList (by decide),
          normalize_count_spec.2.1 "3M".toList (by decide), ?_⟩
  have h := normalize_count_spec.2.2 "1,234".toList
    (by simp [isPlainForm, numericPatternOk, afterIntPart, isSuffixChar, isDig,
              List.dropWhile, List.takeWhile])
  rw [h]
  decide
